import Mathlib

/-!
Verification development for the MinIO → Postgres ETL pipeline
(`src/etl_tasks.py`).  The Python code is shallowly embedded: pandas
DataFrames become `DataFrame` (a column-name list plus rows of `Value`s),
the Postgres database becomes an association list of named tables, and the
stateful load path becomes explicit state passing returning the final
database together with an optional error.  Pandas permissive date parsing
(`pd.to_datetime(..., errors="coerce")` and the Postgres `::date` cast)
are modelled by an ISO `YYYY-MM-DD` recogniser; `pd.to_numeric(...,
errors="coerce")` is modelled by a decimal-string parser into `Rat`.
-/

deriving instance DecidableEq for Except

/-- A cell value of a DataFrame / database table.  `null` models
`None`/`NaN`/SQL NULL; `ts` models a pandas `datetime64` element carrying
its ISO date text; `date` models a SQL DATE value. -/
inductive Value where
  | null
  | int (n : Int)
  | num (q : Rat)
  | bool (b : Bool)
  | ts (iso : String)
  | date (iso : String)
  | str (s : String)
deriving DecidableEq

abbrev Row := List Value

/-- A pandas DataFrame (also used for database tables): ordered column
names plus rows; row `i`'s `j`-th entry belongs to column `j`. -/
structure DataFrame where
  cols : List String
  rows : List Row
deriving DecidableEq

/-- Pandas column dtypes relevant to `pandas_dtype_to_sqlalchemy`. -/
inductive Dtype where
  | int64
  | float64
  | boolean
  | datetime64
  | object
deriving DecidableEq

/-- SQLAlchemy column types used by the pipeline. -/
inductive SqlType where
  | integer
  | float
  | boolean
  | date
  | text
deriving DecidableEq

-- ---------- Config constants (src/etl_tasks.py lines 39-41) ----------

def TARGET_TABLE : String := "orders_clean"

def UNIQUE_KEY : String := "order_id"

/-- src/etl_tasks.py line 129. -/
def REQUIRED_COLUMNS : List String :=
  ["order_id", "user_id", "product_id", "quantity", "price", "order_date"]

-- ---------- string/number helpers ----------
-- (structural recursions over `List Char`, so that the kernel can
-- evaluate them inside `decide`)

def startsWithChars : List Char → List Char → Bool
  | [], _ => true
  | _ :: _, [] => false
  | p :: ps, t :: ts => p == t && startsWithChars ps ts

/-- Does `pat` occur as a contiguous substring of the second list? -/
def hasSubChars (pat : List Char) : List Char → Bool
  | [] => startsWithChars pat []
  | c :: rest => startsWithChars pat (c :: rest) || hasSubChars pat rest

/-- Split on a separator character (model of `str.split`). -/
def splitOnChar (sep : Char) (cs : List Char) : List (List Char) :=
  cs.foldr (fun c acc => match acc with
    | [] => [[]]
    | g :: gs => if c = sep then [] :: g :: gs else (c :: g) :: gs) [[]]

def trimChars (cs : List Char) : List Char :=
  ((cs.dropWhile Char.isWhitespace).reverse.dropWhile Char.isWhitespace).reverse

def strLower (s : String) : String := String.mk (s.data.map Char.toLower)

/-- `c.strip().lower()` from the rename lambda (line 108). -/
def normName (c : String) : String :=
  String.mk ((trimChars c.data).map Char.toLower)

/-- `"date" in c.lower()` (line 221). -/
def containsDate (c : String) : Bool :=
  hasSubChars "date".data (strLower c).data

def digitsToNat (cs : List Char) : Nat :=
  cs.foldl (fun a c => a * 10 + (c.toNat - 48)) 0

def allDigits (cs : List Char) : Bool := cs.all Char.isDigit

/-- Unsigned decimal-number recogniser, modelling the numbers accepted by
`pd.to_numeric` ("3", "2.9", ".5", "2."). -/
def parseUnsignedChars (cs : List Char) : Option Rat :=
  match splitOnChar '.' cs with
  | [i] =>
      if i ≠ [] ∧ allDigits i then some (mkRat (digitsToNat i) 1) else none
  | [i, f] =>
      if (i ≠ [] ∨ f ≠ []) ∧ allDigits i ∧ allDigits f then
        some (mkRat (digitsToNat i * 10 ^ f.length + digitsToNat f)
          (10 ^ f.length))
      else none
  | _ => none

/-- Signed decimal parser: model of `pd.to_numeric(v, errors="coerce")`
on a string. -/
def parseRat (s : String) : Option Rat :=
  match s.data with
  | '-' :: rest => (parseUnsignedChars rest).map (fun q => -q)
  | cs => parseUnsignedChars cs

/-- `pd.to_numeric(v, errors="coerce")`: numbers pass through, booleans
become 0/1, everything else coerces to NaN (modelled as `none`). -/
def toNumeric (v : Value) : Option Rat :=
  match v with
  | .int n => some (n : Rat)
  | .num q => some q
  | .bool b => some (if b then 1 else 0)
  | .str s => parseRat s
  | _ => none

/-- Truncation toward zero, modelling numpy `astype(int)`. -/
def ratTrunc (q : Rat) : Int :=
  if 0 ≤ q then q.floor else q.ceil

/-- Rational multiplication written through `mkRat` (definitionally
transparent, provably equal to `Rat.mul`). -/
def ratMul (a b : Rat) : Rat := mkRat (a.num * b.num) (a.den * b.den)

/-- `YYYY-MM-DD` recogniser (4-digit year, month 01-12, day 01-31). -/
def isIsoDate (s : String) : Bool :=
  match splitOnChar '-' s.data with
  | [y, m, d] =>
      decide (y.length = 4 ∧ m.length = 2 ∧ d.length = 2)
        && allDigits y && allDigits m && allDigits d
        && decide (1 ≤ digitsToNat m ∧ digitsToNat m ≤ 12)
        && decide (1 ≤ digitsToNat d ∧ digitsToNat d ≤ 31)
  | _ => false

/-- `pd.to_datetime(v, errors="coerce")` followed by taking the date part:
returns the ISO date text on success, `none` (NaT) otherwise.  Permissive
parsing is modelled by ISO-format recognition. -/
def pdToDatetime (v : Value) : Option String :=
  match v with
  | .str s => if isIsoDate s then some s else none
  | .ts iso => some iso
  | .date iso => some iso
  | _ => none

/-- Lines 110-118: coerce a raw `order_date` cell, then render it as an
ISO text string (`to_iso_date`); unparseable values become null. -/
def transDateVal (v : Value) : Value :=
  match pdToDatetime v with
  | none => .null
  | some s => .str s

/-- Line 120: `pd.to_numeric(_, errors="coerce").fillna(0).astype(int)`. -/
def coerceQty (v : Value) : Value :=
  .int (ratTrunc ((toNumeric v).getD 0))

/-- Line 121: `pd.to_numeric(_, errors="coerce").fillna(0.0)`. -/
def coercePrice (v : Value) : Value :=
  .num ((toNumeric v).getD 0)

/-- Line 122: elementwise product `df["quantity"] * df["price"]`. -/
def mulQP (a b : Value) : Value :=
  match a, b with
  | .int n, .num q => .num (ratMul (n : Rat) q)
  | .int n, .int m => .int (n * m)
  | .num p, .num q => .num (ratMul p q)
  | .num p, .int m => .num (ratMul p (m : Rat))
  | _, _ => .null

-- ---------- DataFrame access primitives ----------

/-- Cell at position `i` of a row; out-of-range reads give `null`. -/
def cellD (r : Row) (i : Nat) : Value := r.getD i Value.null

/-- Position of column `c` (first occurrence; `cols.length` if absent). -/
def colIdx (cols : List String) (c : String) : Nat := cols.indexOf c

/-- Value of column `c` in row `r`. -/
def valAt (cols : List String) (r : Row) (c : String) : Value :=
  cellD r (colIdx cols c)

/-- The values of column `c`, top to bottom. -/
def getColD (df : DataFrame) (c : String) : List Value :=
  df.rows.map (fun r => valAt df.cols r c)

/-- Replace position `i` of a row by `f` of the old value (no-op when out
of range). -/
def setCell (r : Row) (i : Nat) (f : Value → Value) : Row :=
  match r.get? i with
  | some v => r.set i (f v)
  | none => r

/-- `df[c] = df[c].apply(f)`. -/
def mapCol (df : DataFrame) (c : String) (f : Value → Value) : DataFrame :=
  ⟨df.cols, df.rows.map (fun r => setCell r (colIdx df.cols c) f)⟩

/-- `df[c] = vs`: overwrite column `c`, or append it as a new last column
when absent. -/
def setCol (df : DataFrame) (c : String) (vs : List Value) : DataFrame :=
  if c ∈ df.cols then
    ⟨df.cols, List.zipWith (fun r v => r.set (colIdx df.cols c) v) df.rows vs⟩
  else
    ⟨df.cols ++ [c], List.zipWith (fun r v => r ++ [v]) df.rows vs⟩

/-- Well-formedness: every row has exactly one cell per column. -/
def WF (df : DataFrame) : Prop :=
  ∀ r ∈ df.rows, r.length = df.cols.length

-- ---------- Transform (src/etl_tasks.py lines 107-126) ----------

/-- Line 108: `df.rename(columns=lambda c: c.strip().lower())`. -/
def transformStep1 (df : DataFrame) : DataFrame :=
  ⟨df.cols.map normName, df.rows⟩

/-- Lines 109-118: permissive `order_date` parse, then ISO text render. -/
def transformStep2 (df : DataFrame) : DataFrame :=
  if "order_date" ∈ df.cols then mapCol df "order_date" transDateVal else df

/-- Lines 119-122: numeric coercion of quantity/price and the derived
`total_price` column. -/
def transformStep3 (df : DataFrame) : DataFrame :=
  if "quantity" ∈ df.cols ∧ "price" ∈ df.cols then
    setCol (mapCol (mapCol df "quantity" coerceQty) "price" coercePrice)
      "total_price"
      (List.zipWith mulQP
        (getColD (mapCol (mapCol df "quantity" coerceQty) "price"
          coercePrice) "quantity")
        (getColD (mapCol (mapCol df "quantity" coerceQty) "price"
          coercePrice) "price"))
  else df

/-- Lines 123-124: `df.dropna(subset=[UNIQUE_KEY])`. -/
def transformStep4 (df : DataFrame) : DataFrame :=
  if UNIQUE_KEY ∈ df.cols then
    ⟨df.cols,
      df.rows.filter (fun r => decide (valAt df.cols r UNIQUE_KEY ≠ Value.null))⟩
  else df

/-- `transform_orders_df` (lines 107-126).  `reset_index(drop=True)` is
the identity on the list-of-rows representation. -/
def transform_orders_df (df : DataFrame) : DataFrame :=
  transformStep4 (transformStep3 (transformStep2 (transformStep1 df)))

-- ---------- Data-quality checks (lines 130-139) ----------

def basic_data_quality_checks (df : DataFrame)
    (required : List String := REQUIRED_COLUMNS) : List String :=
  (if required.filter (fun c => decide (c ∉ df.cols)) = [] then []
   else ["Missing required columns: " ++
     toString (required.filter (fun c => decide (c ∉ df.cols)))]) ++
  (if df.rows.length = 0 then ["No rows in dataset after download/transform."]
   else []) ++
  (if UNIQUE_KEY ∈ df.cols ∧ ¬ (getColD df UNIQUE_KEY).Nodup then
    ["Duplicate values found in UNIQUE_KEY column."]
   else [])

-- ---------- Type inference (lines 142-152) ----------

def isIntV : Value → Bool | .int _ => true | _ => false

def isNumV : Value → Bool | .int _ => true | .num _ => true | _ => false

def isNullV : Value → Bool | .null => true | _ => false

def isBoolV : Value → Bool | .bool _ => true | _ => false

def isTsV : Value → Bool | .ts _ => true | _ => false

/-- Pandas dtype of a column built from the given values: all-integer
columns are int64, numeric columns with a float or a missing value are
float64, all-bool columns are bool, datetime columns (NaT allowed) are
datetime64, everything else (including all-null and empty columns) is
object. -/
def inferDtype (vs : List Value) : Dtype :=
  if vs ≠ [] ∧ vs.all isIntV then .int64
  else if (vs.all fun v => isNumV v || isNullV v) ∧ vs.any isNumV then .float64
  else if vs ≠ [] ∧ vs.all isBoolV then .boolean
  else if (vs.all fun v => isTsV v || isNullV v) ∧ vs.any isTsV then .datetime64
  else .object

/-- Lines 142-152: dtype-directed column type, defaulting to `Text`. -/
def pandas_dtype_to_sqlalchemy (colName : String) (series : List Value) :
    String × SqlType :=
  (colName,
    match inferDtype series with
    | .int64 => .integer
    | .float64 => .float
    | .boolean => .boolean
    | .datetime64 => .date
    | .object => .text)

-- ---------- Database model ----------

/-- The Postgres database: an association list from table name to table
content (most recent binding first). -/
abbrev DB := List (String × DataFrame)

def lookupTable (db : DB) (n : String) : Option DataFrame :=
  (db.find? (fun p => p.1 == n)).map (fun p => p.2)

def hasTable (db : DB) (n : String) : Bool := (lookupTable db n).isSome

/-- `DROP TABLE IF EXISTS n`. -/
def dropTable (db : DB) (n : String) : DB :=
  db.filter (fun p => !(p.1 == n))

/-- Create-or-replace a table binding. -/
def setTable (db : DB) (n : String) (t : DataFrame) : DB :=
  (n, t) :: dropTable db n

/-- Name of the transient staging relation (line 259). -/
def stagingName (tableName : String) : String := tableName ++ "_staging"

-- ---------- Type Reconciler (lines 216-237) ----------

/-- Payload of the `RuntimeError` raised on a failed `::date` cast:
column name, underlying Postgres error, and the first-10-rows sample. -/
structure CastFail where
  col : String
  cause : String
  sample : List Value
deriving DecidableEq

def dateCastErrMsg : String := "invalid input syntax for type date"

/-- Postgres `v::date` on a staged cell: NULL casts to NULL, ISO text to
DATE, DATE/timestamp stay castable, anything else raises. -/
def castDateVal (v : Value) : Option Value :=
  match v with
  | .null => some .null
  | .str s => if isIsoDate s then some (.date s) else none
  | .date s => some (.date s)
  | .ts s => some (.date s)
  | _ => none

/-- Sequence a list of optional results, all-or-nothing. -/
def seqOpt : List (Option Value) → Option (List Value)
  | [] => some []
  | none :: _ => none
  | some a :: rest => (seqOpt rest).map (fun l => a :: l)

/-- `ALTER TABLE staging ALTER COLUMN c TYPE date USING (c::date)`
(line 228); on failure, the first 10 current values of the column are
sampled for the error payload (lines 230-237). -/
def castCol (t : DataFrame) (c : String) : Except CastFail DataFrame :=
  let vs := getColD t c
  match seqOpt (vs.map castDateVal) with
  | some vs' => .ok (setCol t c vs')
  | none => .error ⟨c, dateCastErrMsg, vs.take 10⟩

/-- Cast the listed columns in order, stopping at the first failure; each
successful `ALTER` commits, so the table state at the failure point is
returned alongside the error. -/
def castDates : DataFrame → List String → DataFrame × Option CastFail
  | t, [] => (t, none)
  | t, c :: rest =>
    match castCol t c with
    | .ok t' => castDates t' rest
    | .error f => (t, some f)

/-- `attempt_cast_date_columns` (lines 216-237): every column of the
incoming DataFrame whose name contains "date" (case-insensitive) is cast
to DATE in the staging table. -/
def attempt_cast_date_columns (t : DataFrame) (df : DataFrame) :
    DataFrame × Option CastFail :=
  castDates t (df.cols.filter (fun c => containsDate c))

-- ---------- Merge Engine (lines 270-283) ----------

/-- The unique-key cell of a row, given the key's column position. -/
def keyAt (ki : Nat) (r : Row) : Value := cellD r ki

/-- `DO UPDATE SET c = EXCLUDED.c` for every non-key column: the sink row
keeps its key cell, every other cell comes from the staging row. -/
def updateRow (ki : Nat) (s r : Row) : Row := r.set ki (cellD s ki)

/-- Process one staging row of the `INSERT ... ON CONFLICT` statement:
update the conflicting sink row if the key already exists, else append. -/
def mergeOne (ki : Nat) (sink : List Row) (r : Row) : List Row :=
  if ∃ s ∈ sink, keyAt ki s = keyAt ki r then
    sink.map (fun s => if keyAt ki s = keyAt ki r then updateRow ki s r else s)
  else sink ++ [r]

def mergeRows (ki : Nat) (sink st : List Row) : List Row :=
  st.foldl (mergeOne ki) sink

/-- The upsert statement (lines 275-280).  Two staging rows with the same
key would make `ON CONFLICT DO UPDATE` affect a row twice, which Postgres
rejects; the statement is atomic, so that case changes nothing. -/
def mergeStaging (ki : Nat) (sink st : List Row) :
    Except String (List Row) :=
  if (st.map (keyAt ki)).Nodup then .ok (mergeRows ki sink st)
  else .error "ON CONFLICT DO UPDATE command cannot affect row a second time"

-- ---------- Load (lines 239-289) ----------

inductive LoadErr where
  | copyErr (msg : String)
  | castErr (f : CastFail)
  | mergeErr (msg : String)
deriving DecidableEq

/-- Step 1 of the load (lines 253-256): create the target table from
`df.head(0)` (schema only, inferred types, no rows) when it is missing. -/
def ensureTarget (db : DB) (df : DataFrame) (tableName : String) : DB :=
  if hasTable db tableName then db else setTable db tableName ⟨df.cols, []⟩

/-- Step 5-6 of the load (lines 270-283): the `INSERT ... ON CONFLICT`
statement over exactly `df`'s columns, and the `DROP TABLE` of staging
executed in the same transaction; a merge failure rolls the whole
transaction back, leaving the staging relation in place. -/
def mergeStep (db4 : DB) (df : DataFrame) (tableName uniqueKey : String)
    (t' : DataFrame) : DB × Option LoadErr :=
  if ((lookupTable db4 tableName).getD ⟨df.cols, []⟩).cols = df.cols then
    match mergeStaging (colIdx df.cols uniqueKey)
        ((lookupTable db4 tableName).getD ⟨df.cols, []⟩).rows t'.rows with
    | .error m => (db4, some (.mergeErr m))
    | .ok merged =>
      (setTable (dropTable db4 (stagingName tableName)) tableName
        ⟨((lookupTable db4 tableName).getD ⟨df.cols, []⟩).cols, merged⟩, none)
  else (db4, some (.mergeErr "column does not exist"))

/-- `load_df_to_postgres_upsert` (lines 239-289), returning the database
state at the moment the call returns together with the raised error, if
any.  Substages: target creation from `df.head(0)` when missing, staging
create (drop-if-exists first, lines 168-179), bulk COPY (lines 181-214),
date cast, and the atomic upsert-then-drop-staging transaction.  The
`except` block at lines 287-289 only logs and re-raises, so a failure
leaves the database as the failing substage left it. -/
def load_df_to_postgres_upsert (db : DB) (df : DataFrame)
    (tableName : String := TARGET_TABLE) (uniqueKey : String := UNIQUE_KEY) :
    DB × Option LoadErr :=
  -- staging create + COPY leave staging holding exactly df's rows;
  -- then the date-like staging columns are cast (lines 216-237, 267-268)
  match attempt_cast_date_columns ⟨df.cols, df.rows⟩ df with
  | (t', some f) =>
    (setTable (setTable (ensureTarget db df tableName)
        (stagingName tableName) ⟨df.cols, df.rows⟩)
      (stagingName tableName) t', some (.castErr f))
  | (t', none) =>
    mergeStep (setTable (setTable (ensureTarget db df tableName)
        (stagingName tableName) ⟨df.cols, df.rows⟩)
      (stagingName tableName) t') df tableName uniqueKey t'

-- ---------- Orchestrator (lines 292-327) ----------

inductive EtlError where
  | dqError (msgs : List String)
  | schemaError (msgs : List String)
  | loadError (e : LoadErr)
deriving DecidableEq

/-- Result of one orchestrator run: final database, raised error (if
any), and which of the two post-gate stages were entered. -/
structure RunOutcome where
  db : DB
  error : Option EtlError
  ranSchemaValidation : Bool
  ranLoad : Bool
deriving DecidableEq

/-- Append-only load: COPY straight into the target table (lines
322-325); fails when the target relation does not exist. -/
def copyAppend (db : DB) (tableName : String) (df : DataFrame) :
    DB × Option LoadErr :=
  match lookupTable db tableName with
  | none => (db, some (.copyErr "relation does not exist"))
  | some t => (setTable db tableName ⟨t.cols, t.rows ++ df.rows⟩, none)

/-- `run_etl_from_minio_to_postgres` (lines 292-327).  Extraction is
modelled by handing the already-downloaded DataFrame `raw` to the run;
JSON-schema validation is an external collaborator, modelled by the
`validator` parameter (row-wise `jsonschema` checking of the transformed
frame, deterministic in its input). -/
def run_etl_from_minio_to_postgres (validator : DataFrame → List String)
    (raw : DataFrame) (db : DB)
    (performUpsert : Bool := true) (schemaCheck : Bool := true) :
    RunOutcome :=
  let dfClean := transform_orders_df raw
  let dq := basic_data_quality_checks dfClean
  if dq = [] then
    if schemaCheck then
      if validator dfClean = [] then
        (match (if performUpsert then load_df_to_postgres_upsert db dfClean
                else copyAppend db TARGET_TABLE dfClean) with
         | (db', none) => ⟨db', none, true, true⟩
         | (db', some e) => ⟨db', some (.loadError e), true, true⟩)
      else ⟨db, some (.schemaError (validator dfClean)), true, false⟩
    else
      (match (if performUpsert then load_df_to_postgres_upsert db dfClean
              else copyAppend db TARGET_TABLE dfClean) with
       | (db', none) => ⟨db', none, false, true⟩
       | (db', some e) => ⟨db', some (.loadError e), false, true⟩)
  else ⟨db, some (.dqError dq), false, false⟩

-- ---------- basic row/cell lemmas ----------

theorem set_getD_self (r : Row) (i : Nat) : r.set i (r.getD i Value.null) = r := by
  induction r generalizing i with
  | nil => simp
  | cons a t ih =>
    cases i with
    | zero => simp
    | succ n => simpa [List.getD_eq_getElem?_getD] using ih n

theorem cellD_set_ne (r : Row) {i j : Nat} (h : j ≠ i) (v : Value) :
    cellD (r.set i v) j = cellD r j := by
  simp [cellD, List.getD_eq_getElem?_getD, List.getElem?_set_ne (Ne.symm h)]

theorem cellD_set_lt (r : Row) {i : Nat} (h : i < r.length) (v : Value) :
    cellD (r.set i v) i = v := by
  simp [cellD, List.getD_eq_getElem?_getD, List.getElem?_set_self' , h]

theorem length_setCell (r : Row) (i : Nat) (f : Value → Value) :
    (setCell r i f).length = r.length := by
  unfold setCell
  cases h : r.get? i <;> simp

theorem cellD_setCell_ne (r : Row) {i j : Nat} (h : j ≠ i) (f : Value → Value) :
    cellD (setCell r i f) j = cellD r j := by
  unfold setCell
  cases h' : r.get? i with
  | none => rfl
  | some v => exact cellD_set_ne r h (f v)

theorem cellD_setCell_lt (r : Row) {i : Nat} (h : i < r.length)
    (f : Value → Value) : cellD (setCell r i f) i = f (cellD r i) := by
  unfold setCell
  rw [List.get?_eq_get h]
  rw [cellD_set_lt r h]
  simp [cellD, List.getD_eq_getElem?_getD, List.getElem?_eq_getElem h,
    List.get_eq_getElem]

theorem cellD_append_lt (r r' : Row) {i : Nat} (h : i < r.length) :
    cellD (r ++ r') i = cellD r i := by
  simp [cellD, List.getD_eq_getElem?_getD, List.getElem?_append_left h]

theorem cellD_concat_length (r : Row) (v : Value) :
    cellD (r ++ [v]) r.length = v := by
  simp [cellD, List.getD_eq_getElem?_getD, List.getElem?_concat_length]

-- ---------- colIdx lemmas ----------

theorem colIdx_lt_length {cols : List String} {c : String} (h : c ∈ cols) :
    colIdx cols c < cols.length :=
  List.indexOf_lt_length.mpr h

theorem colIdx_eq_length {cols : List String} {c : String} (h : c ∉ cols) :
    colIdx cols c = cols.length :=
  List.indexOf_eq_length.mpr h

theorem get_colIdx {cols : List String} {c : String} (h : c ∈ cols) :
    cols.get ⟨colIdx cols c, colIdx_lt_length h⟩ = c :=
  List.indexOf_get (colIdx_lt_length h)

theorem colIdx_ne {cols : List String} {a b : String} (ha : a ∈ cols)
    (hb : b ∈ cols) (hab : a ≠ b) : colIdx cols a ≠ colIdx cols b := by
  intro h
  apply hab
  have h1 := get_colIdx ha
  have h2 := get_colIdx hb
  rw [← h1, ← h2]
  congr 1
  exact Fin.ext h

theorem colIdx_append_left {cols : List String} {c : String} (h : c ∈ cols)
    (cols' : List String) : colIdx (cols ++ cols') c = colIdx cols c :=
  List.indexOf_append_of_mem h

theorem colIdx_concat_self {cols : List String} {c : String} (h : c ∉ cols) :
    colIdx (cols ++ [c]) c = cols.length := by
  induction cols with
  | nil => simp [colIdx, List.indexOf_cons, List.indexOf_nil]
  | cons a t ih =>
    have hat : c ≠ a := fun he => h (he ▸ List.mem_cons_self a t)
    have h' : c ∉ t := fun he => h (List.mem_cons_of_mem a he)
    simp only [List.cons_append, colIdx, List.indexOf_cons]
    rw [beq_false_of_ne (Ne.symm hat)]
    simpa [colIdx] using ih h'

-- ---------- DB lemmas ----------

theorem lookupTable_cons (p : String × DataFrame) (db : DB) (m : String) :
    lookupTable (p :: db) m = if p.1 = m then some p.2 else lookupTable db m := by
  by_cases hpm : p.1 = m <;> simp [lookupTable, List.find?_cons, hpm]

theorem dropTable_cons (p : String × DataFrame) (db : DB) (n : String) :
    dropTable (p :: db) n =
      if p.1 = n then dropTable db n else p :: dropTable db n := by
  by_cases hpn : p.1 = n <;> simp [dropTable, List.filter_cons, hpn]

theorem lookup_dropTable {db : DB} {m n : String} (h : m ≠ n) :
    lookupTable (dropTable db n) m = lookupTable db m := by
  induction db with
  | nil => rfl
  | cons p db ih =>
    rw [dropTable_cons]
    by_cases hpn : p.1 = n
    · rw [if_pos hpn, ih, lookupTable_cons,
        if_neg (fun hm => h (by rw [← hm, hpn]))]
    · rw [if_neg hpn, lookupTable_cons, lookupTable_cons, ih]

theorem lookup_setTable_self (db : DB) (n : String) (t : DataFrame) :
    lookupTable (setTable db n t) n = some t := by
  rw [setTable, lookupTable_cons, if_pos rfl]

theorem lookup_setTable_ne (db : DB) {m n : String} (h : m ≠ n)
    (t : DataFrame) : lookupTable (setTable db n t) m = lookupTable db m := by
  rw [setTable, lookupTable_cons, if_neg (fun hm => h hm.symm),
    lookup_dropTable h]

theorem dropTable_dropTable (db : DB) (n : String) :
    dropTable (dropTable db n) n = dropTable db n := by
  induction db with
  | nil => rfl
  | cons p db ih =>
    rw [dropTable_cons]
    by_cases hpn : p.1 = n
    · rw [if_pos hpn, ih]
    · rw [if_neg hpn, dropTable_cons, if_neg hpn, ih]

theorem setTable_setTable (db : DB) (n : String) (t t' : DataFrame) :
    setTable (setTable db n t) n t' = setTable db n t' := by
  show ((n, t') : String × DataFrame) :: dropTable ((n, t) :: dropTable db n) n
      = (n, t') :: dropTable db n
  rw [dropTable_cons, if_pos rfl, dropTable_dropTable]

theorem stagingName_ne (t : String) : t ≠ stagingName t := by
  intro h
  have hl := congrArg String.length h
  rw [stagingName, String.length_append] at hl
  have : ("_staging" : String).length = 8 := by decide
  omega

-- ---------- generic list helpers ----------

theorem seqOpt_length : ∀ {l : List (Option Value)} {l' : List Value},
    seqOpt l = some l' → l'.length = l.length := by
  intro l
  induction l with
  | nil => intro l' h; simp [seqOpt] at h; simp [← h]
  | cons a rest ih =>
    intro l' h
    cases a with
    | none => simp [seqOpt] at h
    | some v =>
      simp only [seqOpt] at h
      cases hrest : seqOpt rest with
      | none => rw [hrest] at h; simp at h
      | some l'' =>
        rw [hrest] at h
        simp only [Option.map_some'] at h
        injection h with h'
        rw [← h']
        simpa using ih hrest

theorem zipWith_map_right_same {α β : Type} (f : α → β → α) (g : α → β) :
    ∀ l : List α, List.zipWith f l (l.map g) = l.map (fun a => f a (g a)) := by
  intro l
  induction l with
  | nil => rfl
  | cons a t ih => simp [List.zipWith, ih]

theorem zipWith_map_same {α β γ : Type} (f : β → γ → β) (g : α → β)
    (h : α → γ) :
    ∀ l : List α,
      List.zipWith f (l.map g) (l.map h) = l.map (fun a => f (g a) (h a)) := by
  intro l
  induction l with
  | nil => rfl
  | cons a t ih => simp [List.zipWith, ih]

theorem map_zipWith_of_eqlen {α β γ : Type} (f : α → β → α) (g : α → γ)
    (hg : ∀ a b, g (f a b) = g a) :
    ∀ (l : List α) (l' : List β), l'.length = l.length →
      (List.zipWith f l l').map g = l.map g := by
  intro l
  induction l with
  | nil => intro l' _; simp
  | cons a t ih =>
    intro l' hl
    cases l' with
    | nil => simp at hl
    | cons b t' =>
      simp only [List.zipWith, List.map_cons, hg a b]
      exact congrArg _ (ih t' (by simpa using hl))

-- ---------- Merge Engine lemmas ----------

theorem updateRow_of_keyEq {ki : Nat} {s r : Row}
    (h : keyAt ki s = keyAt ki r) : updateRow ki s r = r := by
  unfold updateRow
  have : cellD s ki = r.getD ki Value.null := h
  rw [this, set_getD_self]

theorem mem_mergeOne_self (ki : Nat) (sink : List Row) (r : Row) :
    r ∈ mergeOne ki sink r := by
  by_cases hex : ∃ s ∈ sink, keyAt ki s = keyAt ki r
  · obtain ⟨s0, hs0, he⟩ := hex
    rw [mergeOne, if_pos ⟨s0, hs0, he⟩]
    exact List.mem_map.mpr ⟨s0, hs0, by rw [if_pos he, updateRow_of_keyEq he]⟩
  · rw [mergeOne, if_neg hex]
    exact List.mem_append_right _ (List.mem_singleton_self r)

theorem allKeyEq_mergeOne (ki : Nat) (sink : List Row) (r : Row) :
    ∀ x ∈ mergeOne ki sink r, keyAt ki x = keyAt ki r → x = r := by
  intro x hx hkx
  by_cases hex : ∃ s ∈ sink, keyAt ki s = keyAt ki r
  · rw [mergeOne, if_pos hex] at hx
    obtain ⟨s, hs, hfx⟩ := List.mem_map.mp hx
    by_cases hk : keyAt ki s = keyAt ki r
    · rw [if_pos hk, updateRow_of_keyEq hk] at hfx
      exact hfx.symm
    · rw [if_neg hk] at hfx
      exact absurd (hfx ▸ hkx) hk
  · rw [mergeOne, if_neg hex] at hx
    rcases List.mem_append.mp hx with h | h
    · exact absurd ⟨x, h, hkx⟩ hex
    · exact List.mem_singleton.mp h

theorem mem_mergeOne_of_keyNe (ki : Nat) {sink : List Row} {r x : Row}
    (hx : x ∈ sink) (hne : keyAt ki x ≠ keyAt ki r) :
    x ∈ mergeOne ki sink r := by
  by_cases hex : ∃ s ∈ sink, keyAt ki s = keyAt ki r
  · rw [mergeOne, if_pos hex]
    exact List.mem_map.mpr ⟨x, hx, by rw [if_neg hne]⟩
  · rw [mergeOne, if_neg hex]
    exact List.mem_append_left _ hx

theorem preserve_allKeyEq_mergeOne (ki : Nat) {sink : List Row} {r y : Row}
    {k : Value} (h : ∀ x ∈ sink, keyAt ki x = k → x = y)
    (hkr : keyAt ki r ≠ k) :
    ∀ x ∈ mergeOne ki sink r, keyAt ki x = k → x = y := by
  intro x hx hkx
  by_cases hex : ∃ s ∈ sink, keyAt ki s = keyAt ki r
  · rw [mergeOne, if_pos hex] at hx
    obtain ⟨s, hs, hfx⟩ := List.mem_map.mp hx
    by_cases hk : keyAt ki s = keyAt ki r
    · rw [if_pos hk, updateRow_of_keyEq hk] at hfx
      exact absurd (hfx ▸ hkx) hkr
    · rw [if_neg hk] at hfx
      exact h x (hfx ▸ hs) hkx
  · rw [mergeOne, if_neg hex] at hx
    rcases List.mem_append.mp hx with hmem | hmem
    · exact h x hmem hkx
    · rw [List.mem_singleton.mp hmem] at hkx
      exact absurd hkx hkr

theorem subset_mergeOne (ki : Nat) {sink : List Row} {r x : Row}
    (hx : x ∈ mergeOne ki sink r) : x ∈ sink ∨ x = r := by
  by_cases hex : ∃ s ∈ sink, keyAt ki s = keyAt ki r
  · rw [mergeOne, if_pos hex] at hx
    obtain ⟨s, hs, hfx⟩ := List.mem_map.mp hx
    by_cases hk : keyAt ki s = keyAt ki r
    · rw [if_pos hk, updateRow_of_keyEq hk] at hfx
      exact Or.inr hfx.symm
    · rw [if_neg hk] at hfx
      exact Or.inl (hfx ▸ hs)
  · rw [mergeOne, if_neg hex] at hx
    rcases List.mem_append.mp hx with h | h
    · exact Or.inl h
    · exact Or.inr (List.mem_singleton.mp h)

theorem keys_nodup_mergeOne (ki : Nat) {sink : List Row} (r : Row)
    (h : (sink.map (keyAt ki)).Nodup) :
    ((mergeOne ki sink r).map (keyAt ki)).Nodup := by
  by_cases hex : ∃ s ∈ sink, keyAt ki s = keyAt ki r
  · rw [mergeOne, if_pos hex, List.map_map]
    have he : sink.map
        ((keyAt ki) ∘ fun s =>
          if keyAt ki s = keyAt ki r then updateRow ki s r else s)
        = sink.map (keyAt ki) := by
      apply List.map_congr_left
      intro s hs
      by_cases hk : keyAt ki s = keyAt ki r
      · simp only [Function.comp_apply, if_pos hk, updateRow_of_keyEq hk]
        exact hk.symm
      · simp only [Function.comp_apply, if_neg hk]
    rw [he]
    exact h
  · rw [mergeOne, if_neg hex, List.map_append]
    refine List.Nodup.append h (by simp) ?_
    intro a ha hb
    simp only [List.map_cons, List.map_nil, List.mem_singleton] at hb
    obtain ⟨s, hs, hks⟩ := List.mem_map.mp ha
    exact hex ⟨s, hs, by rw [hks, hb]⟩

theorem mergeOne_id (ki : Nat) {sink : List Row} {r : Row}
    (hex : ∃ s ∈ sink, keyAt ki s = keyAt ki r)
    (hall : ∀ x ∈ sink, keyAt ki x = keyAt ki r → x = r) :
    mergeOne ki sink r = sink := by
  rw [mergeOne, if_pos hex]
  have : sink.map
      (fun s => if keyAt ki s = keyAt ki r then updateRow ki s r else s)
      = sink.map id := by
    apply List.map_congr_left
    intro s hs
    by_cases hk : keyAt ki s = keyAt ki r
    · rw [if_pos hk, updateRow_of_keyEq hk, id_eq, hall s hs hk]
    · rw [if_neg hk, id_eq]
  rw [this, List.map_id]

theorem mergeRows_cons (ki : Nat) (sink : List Row) (r : Row)
    (rest : List Row) :
    mergeRows ki sink (r :: rest) = mergeRows ki (mergeOne ki sink r) rest :=
  rfl

/-- A row `y` pinned at key `k` (present, and the unique carrier of `k`)
stays pinned through merging rows whose keys all differ from `k`. -/
theorem mergeRows_pinned (ki : Nat) (k : Value) (y : Row) :
    ∀ (st : List Row) (S : List Row), y ∈ S → keyAt ki y = k →
      (∀ x ∈ S, keyAt ki x = k → x = y) →
      (∀ r ∈ st, keyAt ki r ≠ k) →
      y ∈ mergeRows ki S st ∧
        ∀ x ∈ mergeRows ki S st, keyAt ki x = k → x = y := by
  intro st
  induction st with
  | nil => intro S hmem hyk hall _; exact ⟨hmem, hall⟩
  | cons r rest ih =>
    intro S hmem hyk hall hset
    rw [mergeRows_cons]
    have hne : keyAt ki y ≠ keyAt ki r := by
      rw [hyk]
      exact fun he => hset r (List.mem_cons_self r rest) he.symm
    exact ih (mergeOne ki S r)
      (mem_mergeOne_of_keyNe ki hmem hne) hyk
      (preserve_allKeyEq_mergeOne ki hall (hset r (List.mem_cons_self r rest)))
      (fun r' h' => hset r' (List.mem_cons_of_mem r h'))

/-- After the merge, every staging row is present in the result and is the
unique row carrying its key (staging keys assumed distinct). -/
theorem mergeRows_writes (ki : Nat) :
    ∀ (st : List Row), (st.map (keyAt ki)).Nodup →
      ∀ (sink : List Row), ∀ r ∈ st,
        r ∈ mergeRows ki sink st ∧
          ∀ x ∈ mergeRows ki sink st, keyAt ki x = keyAt ki r → x = r := by
  intro st
  induction st with
  | nil => intro _ sink r hr; simp at hr
  | cons r0 rest ih =>
    intro hnd sink r hr
    have hnd' : (rest.map (keyAt ki)).Nodup := by
      rw [List.map_cons] at hnd
      exact (List.nodup_cons.mp hnd).2
    have hk0 : keyAt ki r0 ∉ rest.map (keyAt ki) := by
      rw [List.map_cons] at hnd
      exact (List.nodup_cons.mp hnd).1
    rcases List.mem_cons.mp hr with rfl | hr'
    · rw [mergeRows_cons]
      exact mergeRows_pinned ki (keyAt ki r) r rest (mergeOne ki sink r)
        (mem_mergeOne_self ki sink r) rfl (allKeyEq_mergeOne ki sink r)
        (fun r' h' he => hk0 (List.mem_map.mpr ⟨r', h', he⟩))
    · rw [mergeRows_cons]
      exact ih hnd' (mergeOne ki sink r0) r hr'

/-- If every staging row is already present and uniquely keyed in the
sink, the merge is a no-op. -/
theorem mergeRows_stable (ki : Nat) :
    ∀ (st : List Row) (S : List Row),
      (∀ r ∈ st, r ∈ S ∧ ∀ x ∈ S, keyAt ki x = keyAt ki r → x = r) →
      mergeRows ki S st = S := by
  intro st
  induction st with
  | nil => intro S _; rfl
  | cons r0 rest ih =>
    intro S h
    have h0 := h r0 (List.mem_cons_self r0 rest)
    have hid : mergeOne ki S r0 = S :=
      mergeOne_id ki ⟨r0, h0.1, rfl⟩ h0.2
    rw [mergeRows_cons, hid]
    exact ih S (fun r hr => h r (List.mem_cons_of_mem r0 hr))

theorem mergeRows_subset (ki : Nat) :
    ∀ (st : List Row) (sink : List Row) (x : Row),
      x ∈ mergeRows ki sink st → x ∈ sink ∨ x ∈ st := by
  intro st
  induction st with
  | nil => intro sink x hx; exact Or.inl hx
  | cons r0 rest ih =>
    intro sink x hx
    rw [mergeRows_cons] at hx
    rcases ih (mergeOne ki sink r0) x hx with h | h
    · rcases subset_mergeOne ki h with h' | h'
      · exact Or.inl h'
      · exact Or.inr (h' ▸ List.mem_cons_self r0 rest)
    · exact Or.inr (List.mem_cons_of_mem r0 h)

theorem mergeRows_keys_nodup (ki : Nat) :
    ∀ (st : List Row) (sink : List Row),
      (sink.map (keyAt ki)).Nodup →
      ((mergeRows ki sink st).map (keyAt ki)).Nodup := by
  intro st
  induction st with
  | nil => intro sink h; exact h
  | cons r0 rest ih =>
    intro sink h
    rw [mergeRows_cons]
    exact ih (mergeOne ki sink r0) (keys_nodup_mergeOne ki r0 h)

/-- Re-merging the same staging rows changes nothing. -/
theorem mergeRows_idem (ki : Nat) (sink st : List Row)
    (hnd : (st.map (keyAt ki)).Nodup) :
    mergeRows ki (mergeRows ki sink st) st = mergeRows ki sink st :=
  mergeRows_stable ki st (mergeRows ki sink st)
    (fun r hr => mergeRows_writes ki st hnd sink r hr)

theorem lookup_dropTable_self (db : DB) (n : String) :
    lookupTable (dropTable db n) n = none := by
  induction db with
  | nil => rfl
  | cons p db ih =>
    rw [dropTable_cons]
    by_cases hpn : p.1 = n
    · rw [if_pos hpn]; exact ih
    · rw [if_neg hpn, lookupTable_cons, if_neg hpn]; exact ih

/-- Concrete staging rows of the merge-correctness example from the spec
(`order_id` in column 0). -/
def exStagingRows : List Row :=
  [[Value.int 1, Value.str "delivered", Value.num (mkRat 12 1)],
   [Value.int 2, Value.str "x", Value.num (mkRat 5 1)]]

/-- Concrete sink rows of the merge-correctness example from the spec. -/
def exSinkRows : List Row :=
  [[Value.int 1, Value.str "pending", Value.num (mkRat 10 1)]]

/-- C3: the atomic upsert statement succeeds whenever the staging rows
have pairwise-distinct unique-key values; every staging row then appears
in the merged sink and is the unique carrier of its key (so a conflicting
sink row has every non-key column overwritten with the staging row's
values — last-writer-wins — and a staging row with a fresh key is
inserted); sink rows whose key is absent from staging survive unchanged;
no other rows appear, and merged keys stay pairwise distinct. -/
theorem upsert_merge_last_writer_wins (ki : Nat) (sink st : List Row)
    (hst : (st.map (keyAt ki)).Nodup)
    (hsink : (sink.map (keyAt ki)).Nodup) :
    mergeStaging ki sink st = .ok (mergeRows ki sink st) ∧
    (∀ r ∈ st, r ∈ mergeRows ki sink st ∧
      ∀ x ∈ mergeRows ki sink st, keyAt ki x = keyAt ki r → x = r) ∧
    (∀ s ∈ sink, (∀ r ∈ st, keyAt ki r ≠ keyAt ki s) →
      s ∈ mergeRows ki sink st ∧
      ∀ x ∈ mergeRows ki sink st, keyAt ki x = keyAt ki s → x = s) ∧
    (∀ x ∈ mergeRows ki sink st, x ∈ sink ∨ x ∈ st) ∧
    ((mergeRows ki sink st).map (keyAt ki)).Nodup := by
  refine ⟨by rw [mergeStaging, if_pos hst], ?_, ?_, ?_, ?_⟩
  · exact fun r hr => mergeRows_writes ki st hst sink r hr
  · intro s hs hab
    exact mergeRows_pinned ki (keyAt ki s) s st sink hs rfl
      (fun x hx hk => List.inj_on_of_nodup_map hsink hx hs hk) hab
  · exact fun x hx => mergeRows_subset ki st sink x hx
  · exact mergeRows_keys_nodup ki st sink hsink

/-- Witness for C3 at the spec's concrete example: merging staging row
`{order_id:1, status:"delivered", total_price:12}` over sink row
`{order_id:1, status:"pending", total_price:10}` and fresh staging row
`{order_id:2, ...}` yields exactly the overwritten row and the inserted
row. -/
theorem upsert_merge_last_writer_wins_witness :
    ((exStagingRows.map (keyAt 0)).Nodup) ∧
    ((exSinkRows.map (keyAt 0)).Nodup) ∧
    (mergeRows 0 exSinkRows exStagingRows =
      [[Value.int 1, Value.str "delivered", Value.num (mkRat 12 1)],
       [Value.int 2, Value.str "x", Value.num (mkRat 5 1)]]) ∧
    (mergeStaging 0 exSinkRows exStagingRows =
        .ok (mergeRows 0 exSinkRows exStagingRows) ∧
      (∀ r ∈ exStagingRows, r ∈ mergeRows 0 exSinkRows exStagingRows ∧
        ∀ x ∈ mergeRows 0 exSinkRows exStagingRows,
          keyAt 0 x = keyAt 0 r → x = r) ∧
      (∀ s ∈ exSinkRows,
        (∀ r ∈ exStagingRows, keyAt 0 r ≠ keyAt 0 s) →
        s ∈ mergeRows 0 exSinkRows exStagingRows ∧
        ∀ x ∈ mergeRows 0 exSinkRows exStagingRows,
          keyAt 0 x = keyAt 0 s → x = s) ∧
      (∀ x ∈ mergeRows 0 exSinkRows exStagingRows,
        x ∈ exSinkRows ∨ x ∈ exStagingRows) ∧
      ((mergeRows 0 exSinkRows exStagingRows).map (keyAt 0)).Nodup) :=
  ⟨by decide, by decide, by decide,
    upsert_merge_last_writer_wins 0 exSinkRows exStagingRows
      (by decide) (by decide)⟩

/-- C1 counterexample: calling the upsert load on a frame whose
`order_date` column holds `"not-a-date"` makes the date-coercion substage
raise, and after the call returns the staging relation for the sink table
still exists — refuting the claim that no staging relation survives a
failing run. -/
theorem staging_survives_coercion_failure :
    (load_df_to_postgres_upsert []
      ⟨["order_id", "order_date"],
        [[Value.int 1, Value.str "not-a-date"]]⟩).2.isSome = true ∧
    hasTable (load_df_to_postgres_upsert []
      ⟨["order_id", "order_date"],
        [[Value.int 1, Value.str "not-a-date"]]⟩).1
      (stagingName TARGET_TABLE) = true := by
  exact ⟨by decide, by decide⟩

/-- C1 amended: on a load run that returns successfully, no staging
relation for the sink table remains (it is dropped in the same
transaction as the merge); a failing run, by contrast, can leave the
staging relation behind (see the counterexample), and each run begins by
dropping any pre-existing staging relation. -/
theorem staging_dropped_on_success (db : DB) (df : DataFrame)
    (tn uk : String)
    (h : (load_df_to_postgres_upsert db df tn uk).2 = none) :
    hasTable (load_df_to_postgres_upsert db df tn uk).1
      (stagingName tn) = false := by
  unfold load_df_to_postgres_upsert at h ⊢
  rcases hc : attempt_cast_date_columns ⟨df.cols, df.rows⟩ df with ⟨t', e⟩
  rw [hc] at h
  cases e with
  | some f => dsimp only at h; simp at h
  | none =>
    dsimp only at h ⊢
    unfold mergeStep at h ⊢
    by_cases hcols :
        ((lookupTable (setTable (setTable (ensureTarget db df tn)
          (stagingName tn) ⟨df.cols, df.rows⟩) (stagingName tn) t')
          tn).getD ⟨df.cols, []⟩).cols = df.cols
    · rw [if_pos hcols] at h ⊢
      rcases hm : mergeStaging (colIdx df.cols uk)
          ((lookupTable (setTable (setTable (ensureTarget db df tn)
            (stagingName tn) ⟨df.cols, df.rows⟩) (stagingName tn) t')
            tn).getD ⟨df.cols, []⟩).rows t'.rows with m | merged
      · rw [hm] at h; simp at h
      · dsimp only
        unfold hasTable
        rw [lookup_setTable_ne _ (Ne.symm (stagingName_ne tn)),
          lookup_dropTable_self]
        rfl
    · rw [if_neg hcols] at h; simp at h

/-- Witness for the amended C1: a concrete successful run (valid ISO
date) leaves no staging relation behind. -/
theorem staging_dropped_on_success_witness :
    (load_df_to_postgres_upsert []
      ⟨["order_id", "order_date"],
        [[Value.int 1, Value.str "2024-01-01"]]⟩ TARGET_TABLE UNIQUE_KEY).2
      = none ∧
    hasTable (load_df_to_postgres_upsert []
      ⟨["order_id", "order_date"],
        [[Value.int 1, Value.str "2024-01-01"]]⟩ TARGET_TABLE UNIQUE_KEY).1
      (stagingName TARGET_TABLE) = false :=
  ⟨by decide,
    staging_dropped_on_success [] _ TARGET_TABLE UNIQUE_KEY (by decide)⟩

theorem dq_filter_nil_iff (df : DataFrame) :
    (REQUIRED_COLUMNS.filter (fun c => decide (c ∉ df.cols)) = []) ↔
      ¬ (∃ c ∈ REQUIRED_COLUMNS, c ∉ df.cols) := by
  rw [List.filter_eq_nil_iff]
  constructor
  · rintro h ⟨c, hc, hnc⟩
    have h' := h c hc
    simp only [decide_eq_true_eq] at h'
    exact h' hnc
  · intro h c hc
    simp only [decide_eq_true_eq]
    intro hnc
    exact h ⟨c, hc, hnc⟩

theorem dq_ne_nil_iff (df : DataFrame) :
    basic_data_quality_checks df ≠ [] ↔
      (∃ c ∈ REQUIRED_COLUMNS, c ∉ df.cols) ∨ df.rows = [] ∨
        (UNIQUE_KEY ∈ df.cols ∧ ¬ (getColD df UNIQUE_KEY).Nodup) := by
  have hA := dq_filter_nil_iff df
  have hB : df.rows.length = 0 ↔ df.rows = [] := List.length_eq_zero
  unfold basic_data_quality_checks
  split_ifs with A B C <;> simp_all

theorem dq_length (df : DataFrame) :
    (basic_data_quality_checks df).length =
      (if ∃ c ∈ REQUIRED_COLUMNS, c ∉ df.cols then 1 else 0) +
      (if df.rows = [] then 1 else 0) +
      (if UNIQUE_KEY ∈ df.cols ∧ ¬ (getColD df UNIQUE_KEY).Nodup then 1
        else 0) := by
  have hA := dq_filter_nil_iff df
  have hB : df.rows.length = 0 ↔ df.rows = [] := List.length_eq_zero
  unfold basic_data_quality_checks
  split_ifs with A B C <;> simp_all <;>
    (obtain ⟨c, hc, hn⟩ := ‹∃ c ∈ REQUIRED_COLUMNS, c ∉ df.cols›
     exact hn (‹∀ a ∈ REQUIRED_COLUMNS, a ∈ df.cols› c hc))

/-- C5: the Quality Gate report is non-empty exactly when a required
column is missing, the frame is empty, or the unique-key column has
duplicates; all three checks are evaluated and accumulated (the report
length is the number of failing checks, not just the first); and the
orchestrator raises a data-quality error while entering neither the
structural-validation stage nor the load stage exactly when the report is
non-empty. -/
theorem quality_gate_hard_stop :
    (∀ df : DataFrame,
      (basic_data_quality_checks df ≠ [] ↔
        (∃ c ∈ REQUIRED_COLUMNS, c ∉ df.cols) ∨ df.rows = [] ∨
          (UNIQUE_KEY ∈ df.cols ∧ ¬ (getColD df UNIQUE_KEY).Nodup)) ∧
      (basic_data_quality_checks df).length =
        (if ∃ c ∈ REQUIRED_COLUMNS, c ∉ df.cols then 1 else 0) +
        (if df.rows = [] then 1 else 0) +
        (if UNIQUE_KEY ∈ df.cols ∧ ¬ (getColD df UNIQUE_KEY).Nodup then 1
          else 0)) ∧
    (∀ (validator : DataFrame → List String) (raw : DataFrame) (db : DB)
        (pu sc : Bool),
      ((∃ m, (run_etl_from_minio_to_postgres validator raw db pu sc).error =
          some (EtlError.dqError m)) ∧
        (run_etl_from_minio_to_postgres validator raw db pu
          sc).ranSchemaValidation = false ∧
        (run_etl_from_minio_to_postgres validator raw db pu sc).ranLoad =
          false) ↔
      basic_data_quality_checks (transform_orders_df raw) ≠ []) ∧
    (∀ (validator : DataFrame → List String) (raw : DataFrame) (db : DB)
        (pu sc : Bool),
      basic_data_quality_checks (transform_orders_df raw) ≠ [] →
      run_etl_from_minio_to_postgres validator raw db pu sc =
        ⟨db, some (.dqError
            (basic_data_quality_checks (transform_orders_df raw))),
          false, false⟩) := by
  have hrun : ∀ (validator : DataFrame → List String) (raw : DataFrame)
      (db : DB) (pu sc : Bool),
      basic_data_quality_checks (transform_orders_df raw) ≠ [] →
      run_etl_from_minio_to_postgres validator raw db pu sc =
        ⟨db, some (.dqError
            (basic_data_quality_checks (transform_orders_df raw))),
          false, false⟩ := by
    intro validator raw db pu sc hne
    simp only [run_etl_from_minio_to_postgres]
    rw [if_neg hne]
  refine ⟨?_, ?_, hrun⟩
  · exact fun df => ⟨dq_ne_nil_iff df, dq_length df⟩
  · intro validator raw db pu sc
    constructor
    · rintro ⟨⟨m, hmm⟩, hsv, hld⟩
      by_contra hdq
      simp only [run_etl_from_minio_to_postgres] at hmm hsv hld
      rw [if_pos hdq] at hmm hsv hld
      cases sc with
      | false =>
        rw [if_neg (by simp)] at hld
        rcases hl : (if pu then
            load_df_to_postgres_upsert db (transform_orders_df raw)
          else copyAppend db TARGET_TABLE (transform_orders_df raw)) with
          ⟨db', e⟩
        rw [hl] at hld
        cases e <;> simp at hld
      | true =>
        rw [if_pos rfl] at hsv
        by_cases hv : validator (transform_orders_df raw) = []
        · rw [if_pos hv] at hsv
          rcases hl : (if pu then
              load_df_to_postgres_upsert db (transform_orders_df raw)
            else copyAppend db TARGET_TABLE (transform_orders_df raw)) with
            ⟨db', e⟩
          rw [hl] at hsv
          cases e <;> simp at hsv
        · rw [if_neg hv] at hsv
          simp at hsv
    · intro hne
      rw [hrun validator raw db pu sc hne]
      exact ⟨⟨_, rfl⟩, rfl, rfl⟩

/-- Witness for C5: on the empty frame the report is non-empty (missing
required columns and zero rows) and a concrete run hard-stops with a
data-quality error without validating or loading. -/
theorem quality_gate_hard_stop_witness :
    basic_data_quality_checks (transform_orders_df ⟨[], []⟩) ≠ [] ∧
    run_etl_from_minio_to_postgres (fun _ => []) ⟨[], []⟩ [] true true =
      ⟨[], some (.dqError
          (basic_data_quality_checks (transform_orders_df ⟨[], []⟩))),
        false, false⟩ :=
  ⟨by decide,
    quality_gate_hard_stop.2.2 (fun _ => []) ⟨[], []⟩ [] true true
      (by decide)⟩

-- ---------- Type Reconciler lemmas (C6) ----------

theorem castDates_err : ∀ (l : List String) (t t' : DataFrame) (f : CastFail),
    castDates t l = (t', some f) →
    f.col ∈ l ∧ seqOpt ((getColD t' f.col).map castDateVal) = none ∧
      f.sample = (getColD t' f.col).take 10 ∧ f.cause = dateCastErrMsg := by
  intro l
  induction l with
  | nil =>
    intro t t' f h
    simp [castDates] at h
  | cons c rest ih =>
    intro t t' f h
    cases hcc : castCol t c with
    | error f' =>
      simp only [castDates, hcc] at h
      obtain ⟨ht, hf⟩ := Prod.mk.injEq .. ▸ h
      injection hf with hf'
      cases hseq : seqOpt ((getColD t c).map castDateVal) with
      | some vs' => rw [castCol, hseq] at hcc; simp at hcc
      | none =>
        rw [castCol, hseq] at hcc
        injection hcc with hcc'
        subst ht
        rw [← hf', ← hcc']
        exact ⟨List.mem_cons_self c rest, hseq, rfl, rfl⟩
    | ok t'' =>
      simp only [castDates, hcc] at h
      obtain ⟨h1, h2, h3, h4⟩ := ih t'' t' f h
      exact ⟨List.mem_cons_of_mem c h1, h2, h3, h4⟩

theorem castCol_preserve (t : DataFrame) (c c' : String) (t'' : DataFrame)
    (h : castCol t c' = .ok t'') (hc' : c' ∈ t.cols) (hne : c ≠ c') :
    t''.cols = t.cols ∧ getColD t'' c = getColD t c := by
  cases hseq : seqOpt ((getColD t c').map castDateVal) with
  | none => rw [castCol, hseq] at h; simp at h
  | some vs' =>
    rw [castCol, hseq] at h
    injection h with h'
    have hlen : vs'.length = t.rows.length := by
      have := seqOpt_length hseq
      simpa [getColD] using this
    have hidx : colIdx t.cols c ≠ colIdx t.cols c' := by
      by_cases hcmem : c ∈ t.cols
      · exact colIdx_ne hcmem hc' hne
      · rw [colIdx_eq_length hcmem]
        exact fun he => absurd (he ▸ colIdx_lt_length hc') (lt_irrefl _)
    have hset : setCol t c' vs' =
        ⟨t.cols, List.zipWith (fun r v => r.set (colIdx t.cols c') v)
          t.rows vs'⟩ := by
      rw [setCol, if_pos hc']
    rw [← h', hset]
    refine ⟨rfl, ?_⟩
    show (List.zipWith (fun r v => r.set (colIdx t.cols c') v)
      t.rows vs').map (fun r => valAt t.cols r c) = _
    unfold valAt
    exact map_zipWith_of_eqlen _ _
      (fun r v => cellD_set_ne r hidx v) t.rows vs' hlen

theorem castDates_complete : ∀ (l : List String) (t : DataFrame)
    (c : String), (∀ x ∈ l, x ∈ t.cols) → c ∈ l →
    seqOpt ((getColD t c).map castDateVal) = none →
    ((castDates t l).2.isSome = true) := by
  intro l
  induction l with
  | nil => intro t c _ hc _; simp at hc
  | cons c0 rest ih =>
    intro t c hsub hc hfail
    cases hcc : castCol t c0 with
    | error f => simp [castDates, hcc]
    | ok t'' =>
      simp only [castDates, hcc]
      by_cases hceq : c = c0
      · exfalso
        subst hceq
        rw [castCol, hfail] at hcc
        simp at hcc
      · rcases List.mem_cons.mp hc with he | hrest
        · exact absurd he hceq
        · have hc0 : c0 ∈ t.cols := hsub c0 (List.mem_cons_self c0 rest)
          obtain ⟨hcols, hpres⟩ := castCol_preserve t c c0 t'' hcc hc0 hceq
          exact ih t'' c
            (fun x hx => hcols ▸ hsub x (List.mem_cons_of_mem c0 hx))
            hrest (by rw [hpres]; exact hfail)

/-- C6: whenever the Type Reconciler raises, the raised payload names a
column of the incoming frame containing "date" (case-insensitive) whose
`::date` conversion fails on the staging table's current values, carries
the underlying cause, and carries the first 10 of that column's current
values as the sample; conversely, if some date-named column of the
staging table (whose columns are the frame's) cannot be converted, the
Reconciler does raise. -/
theorem date_cast_failure_payload :
    (∀ (t df t' : DataFrame) (f : CastFail),
      attempt_cast_date_columns t df = (t', some f) →
      containsDate f.col = true ∧ f.col ∈ df.cols ∧
      seqOpt ((getColD t' f.col).map castDateVal) = none ∧
      f.sample = (getColD t' f.col).take 10 ∧ f.cause = dateCastErrMsg) ∧
    (∀ t df : DataFrame, t.cols = df.cols →
      (∃ c ∈ df.cols, containsDate c = true ∧
        seqOpt ((getColD t c).map castDateVal) = none) →
      (attempt_cast_date_columns t df).2.isSome = true) := by
  constructor
  · intro t df t' f h
    obtain ⟨h1, h2, h3, h4⟩ := castDates_err _ t t' f h
    obtain ⟨hmem, hcd⟩ := List.mem_filter.mp h1
    exact ⟨hcd, hmem, h2, h3, h4⟩
  · rintro t df hcols ⟨c, hc, hcd, hfail⟩
    exact castDates_complete (df.cols.filter (fun c => containsDate c)) t c
      (fun x hx => hcols ▸ (List.mem_filter.mp hx).1)
      (List.mem_filter.mpr ⟨hc, hcd⟩) hfail

/-- Witness for C6 at the spec's example: an `order_date` staging column
holding `"not-a-date"` raises with a payload naming `"order_date"`,
carrying the cause, and a sample list containing `"not-a-date"`. -/
theorem date_cast_failure_payload_witness :
    attempt_cast_date_columns
        ⟨["order_id", "order_date"], [[Value.int 1, Value.str "not-a-date"]]⟩
        ⟨["order_id", "order_date"],
          [[Value.int 1, Value.str "not-a-date"]]⟩ =
      (⟨["order_id", "order_date"], [[Value.int 1, Value.str "not-a-date"]]⟩,
        some ⟨"order_date", dateCastErrMsg, [Value.str "not-a-date"]⟩) ∧
    (containsDate "order_date" = true ∧
      "order_date" ∈ ["order_id", "order_date"] ∧
      seqOpt ((getColD ⟨["order_id", "order_date"],
          [[Value.int 1, Value.str "not-a-date"]]⟩ "order_date").map
        castDateVal) = none ∧
      [Value.str "not-a-date"] =
        (getColD ⟨["order_id", "order_date"],
          [[Value.int 1, Value.str "not-a-date"]]⟩ "order_date").take 10 ∧
      dateCastErrMsg = dateCastErrMsg) ∧
    Value.str "not-a-date" ∈ [Value.str "not-a-date"] :=
  ⟨by decide,
    date_cast_failure_payload.1
      ⟨["order_id", "order_date"], [[Value.int 1, Value.str "not-a-date"]]⟩
      ⟨["order_id", "order_date"], [[Value.int 1, Value.str "not-a-date"]]⟩
      ⟨["order_id", "order_date"], [[Value.int 1, Value.str "not-a-date"]]⟩
      ⟨"order_date", dateCastErrMsg, [Value.str "not-a-date"]⟩ (by decide),
    by decide⟩

-- ---------- Type Inferencer lemmas (C4) ----------

theorem inferDtype_all_int {vs : List Value} (hne : vs ≠ [])
    (h : ∀ v ∈ vs, ∃ n, v = Value.int n) : inferDtype vs = .int64 := by
  have hall : vs.all isIntV = true :=
    List.all_eq_true.mpr (fun v hv => by
      obtain ⟨n, rfl⟩ := h v hv; rfl)
  rw [inferDtype, if_pos ⟨hne, hall⟩]

theorem inferDtype_all_bool {vs : List Value} (hne : vs ≠ [])
    (h : ∀ v ∈ vs, ∃ b, v = Value.bool b) : inferDtype vs = .boolean := by
  obtain ⟨v0, hv0⟩ := List.exists_mem_of_ne_nil vs hne
  obtain ⟨b, hb⟩ := h v0 hv0
  have h1 : ¬ (vs ≠ [] ∧ vs.all isIntV = true) := by
    rintro ⟨_, hall⟩
    have := List.all_eq_true.mp hall v0 hv0
    rw [hb] at this
    simp [isIntV] at this
  have h2 : ¬ ((vs.all fun v => isNumV v || isNullV v) = true ∧
      vs.any isNumV = true) := by
    rintro ⟨hall, _⟩
    have := List.all_eq_true.mp hall v0 hv0
    rw [hb] at this
    simp [isNumV, isNullV] at this
  have h3 : vs.all isBoolV = true :=
    List.all_eq_true.mpr (fun v hv => by
      obtain ⟨b', rfl⟩ := h v hv; rfl)
  rw [inferDtype, if_neg h1, if_neg h2, if_pos ⟨hne, h3⟩]

theorem inferDtype_all_ts {vs : List Value} (hne : vs ≠ [])
    (h : ∀ v ∈ vs, ∃ s, v = Value.ts s) : inferDtype vs = .datetime64 := by
  obtain ⟨v0, hv0⟩ := List.exists_mem_of_ne_nil vs hne
  obtain ⟨s0, hs0⟩ := h v0 hv0
  have h1 : ¬ (vs ≠ [] ∧ vs.all isIntV = true) := by
    rintro ⟨_, hall⟩
    have := List.all_eq_true.mp hall v0 hv0
    rw [hs0] at this
    simp [isIntV] at this
  have h2 : ¬ ((vs.all fun v => isNumV v || isNullV v) = true ∧
      vs.any isNumV = true) := by
    rintro ⟨hall, _⟩
    have := List.all_eq_true.mp hall v0 hv0
    rw [hs0] at this
    simp [isNumV, isNullV] at this
  have h3 : ¬ (vs ≠ [] ∧ vs.all isBoolV = true) := by
    rintro ⟨_, hall⟩
    have := List.all_eq_true.mp hall v0 hv0
    rw [hs0] at this
    simp [isBoolV] at this
  have h4 : (vs.all fun v => isTsV v || isNullV v) = true :=
    List.all_eq_true.mpr (fun v hv => by
      obtain ⟨s, rfl⟩ := h v hv; rfl)
  have h5 : vs.any isTsV = true :=
    List.any_eq_true.mpr ⟨v0, hv0, by rw [hs0]; rfl⟩
  rw [inferDtype, if_neg h1, if_neg h2, if_neg h3, if_pos ⟨h4, h5⟩]

theorem snd_pandas_dtype (name : String) (vs : List Value) :
    (pandas_dtype_to_sqlalchemy name vs).2 =
      (pandas_dtype_to_sqlalchemy "" vs).2 := rfl

/-- C4 counterexample: a column holding the date strings
`["2024-01-01", "2024-01-02"]` is object-dtyped, so the Type Inferencer
assigns `TEXT`, not `DATE` — refuting the claim's example that such a
column infers DATE. -/
theorem date_strings_infer_text_not_date :
    (pandas_dtype_to_sqlalchemy "order_date"
      [Value.str "2024-01-01", Value.str "2024-01-02"]).2 = SqlType.text ∧
    SqlType.text ≠ SqlType.date := by
  exact ⟨by decide, by decide⟩

/-- C4 amended: the mapping is total and follows the fixed dtype
priority — an all-integer column infers INTEGER, a numeric column with a
non-integer value infers FLOAT (e.g. `[1.5, 2]`), an all-boolean column
infers BOOLEAN, a datetime64 column (pandas timestamps) infers DATE, and
everything else infers TEXT; in particular a column of date *strings*
such as `["2024-01-01", "2024-01-02"]` is object-dtyped and infers TEXT
(the DATE case needs actual datetime values, not date-shaped text). -/
theorem dtype_mapping_priority :
    (∀ (name : String) (vs : List Value), vs ≠ [] →
      (∀ v ∈ vs, ∃ n, v = Value.int n) →
      (pandas_dtype_to_sqlalchemy name vs).2 = SqlType.integer) ∧
    (∀ name : String, (pandas_dtype_to_sqlalchemy name
        [Value.num (mkRat 3 2), Value.int 2]).2 = SqlType.float) ∧
    (∀ (name : String) (vs : List Value), vs ≠ [] →
      (∀ v ∈ vs, ∃ b, v = Value.bool b) →
      (pandas_dtype_to_sqlalchemy name vs).2 = SqlType.boolean) ∧
    (∀ (name : String) (vs : List Value), vs ≠ [] →
      (∀ v ∈ vs, ∃ s, v = Value.ts s) →
      (pandas_dtype_to_sqlalchemy name vs).2 = SqlType.date) ∧
    (∀ name : String, (pandas_dtype_to_sqlalchemy name
        [Value.str "a", Value.str "b"]).2 = SqlType.text) ∧
    (∀ name : String, (pandas_dtype_to_sqlalchemy name
        [Value.str "2024-01-01", Value.str "2024-01-02"]).2 =
          SqlType.text) := by
  refine ⟨?_, fun name => by rw [snd_pandas_dtype]; decide, ?_, ?_,
    fun name => by rw [snd_pandas_dtype]; decide,
    fun name => by rw [snd_pandas_dtype]; decide⟩
  · intro name vs hne h
    rw [pandas_dtype_to_sqlalchemy, inferDtype_all_int hne h]
  · intro name vs hne h
    rw [pandas_dtype_to_sqlalchemy, inferDtype_all_bool hne h]
  · intro name vs hne h
    rw [pandas_dtype_to_sqlalchemy, inferDtype_all_ts hne h]

/-- Witness for the amended C4: the integer-column case applied to the
spec's `[1, 2, 3]` example. -/
theorem dtype_mapping_priority_witness :
    (([Value.int 1, Value.int 2, Value.int 3] : List Value) ≠ [] ∧
      ∀ v ∈ [Value.int 1, Value.int 2, Value.int 3], ∃ n, v = Value.int n) ∧
    (pandas_dtype_to_sqlalchemy "quantity"
      [Value.int 1, Value.int 2, Value.int 3]).2 = SqlType.integer :=
  ⟨⟨by decide, fun v hv => by fin_cases hv <;> exact ⟨_, rfl⟩⟩,
    dtype_mapping_priority.1 "quantity" [Value.int 1, Value.int 2, Value.int 3]
      (by decide) (fun v hv => by fin_cases hv <;> exact ⟨_, rfl⟩)⟩

-- ---------- Transformer lemmas (C7-C10) ----------

theorem colIdx_ne_of_ne {cols : List String} {c c' : String}
    (hc' : c' ∈ cols) (hne : c ≠ c') :
    colIdx cols c ≠ colIdx cols c' := by
  by_cases hc : c ∈ cols
  · exact colIdx_ne hc hc' hne
  · rw [colIdx_eq_length hc]
    exact fun he => absurd (he ▸ colIdx_lt_length hc') (lt_irrefl _)

theorem map_zipWith_of_eqlen_mem {α β γ : Type} (f : α → β → α) (g : α → γ) :
    ∀ (l : List α) (l' : List β), l'.length = l.length →
      (∀ a ∈ l, ∀ b, g (f a b) = g a) →
      (List.zipWith f l l').map g = l.map g := by
  intro l
  induction l with
  | nil => intro l' _ _; simp
  | cons a t ih =>
    intro l' hl hg
    cases l' with
    | nil => simp at hl
    | cons b t' =>
      simp only [List.zipWith, List.map_cons,
        hg a (List.mem_cons_self a t) b]
      exact congrArg _ (ih t' (by simpa using hl)
        (fun x hx => hg x (List.mem_cons_of_mem a hx)))

theorem cols_transformStep2 (df : DataFrame) :
    (transformStep2 df).cols = df.cols := by
  unfold transformStep2
  split_ifs <;> rfl

theorem mem_cols_transformStep3 (df : DataFrame) {c : String}
    (h : c ∈ df.cols) : c ∈ (transformStep3 df).cols := by
  unfold transformStep3
  split_ifs with hqp
  · show c ∈ (setCol _ "total_price" _).cols
    unfold setCol
    split_ifs with htp
    · exact h
    · exact List.mem_append_left _ h
  · exact h

theorem cols_transformStep4 (df : DataFrame) :
    (transformStep4 df).cols = df.cols := by
  unfold transformStep4
  split_ifs <;> rfl

theorem rows_transformStep4_subset (df : DataFrame) :
    ∀ r ∈ (transformStep4 df).rows, r ∈ df.rows := by
  unfold transformStep4
  split_ifs with h
  · intro r hr
    exact List.mem_of_mem_filter hr
  · intro r hr
    exact hr

theorem WF_transformStep1 (df : DataFrame) (h : WF df) :
    WF (transformStep1 df) := by
  intro r hr
  show r.length = (df.cols.map normName).length
  rw [List.length_map]
  exact h r hr

theorem WF_mapCol (df : DataFrame) (c : String) (f : Value → Value)
    (h : WF df) : WF (mapCol df c f) := by
  intro r' hr'
  obtain ⟨r, hr, rfl⟩ := List.mem_map.mp hr'
  show (setCell r (colIdx df.cols c) f).length = df.cols.length
  rw [length_setCell]
  exact h r hr

theorem WF_transformStep2 (df : DataFrame) (h : WF df) :
    WF (transformStep2 df) := by
  unfold transformStep2
  split_ifs with hod
  · exact WF_mapCol df "order_date" transDateVal h
  · exact h

theorem getColD_mapCol_ne (df : DataFrame) {c c' : String}
    (f : Value → Value) (hne : c ≠ c') (hc' : c' ∈ df.cols) :
    getColD (mapCol df c' f) c = getColD df c := by
  unfold getColD mapCol valAt
  rw [List.map_map]
  apply List.map_congr_left
  intro r hr
  simp only [Function.comp_apply]
  exact cellD_setCell_ne r (colIdx_ne_of_ne hc' hne) f

theorem getColD_setCol_ne (df : DataFrame) {c c' : String}
    (vs : List Value) (hne : c ≠ c') (hc : c ∈ df.cols) (hwf : WF df)
    (hlen : vs.length = df.rows.length) :
    getColD (setCol df c' vs) c = getColD df c := by
  unfold setCol
  split_ifs with hc'
  · unfold getColD valAt
    dsimp only
    exact map_zipWith_of_eqlen_mem _ _ df.rows vs hlen
      (fun r _ v => cellD_set_ne r (colIdx_ne_of_ne hc' hne) v)
  · unfold getColD valAt
    dsimp only
    rw [colIdx_append_left hc]
    exact map_zipWith_of_eqlen_mem _ _ df.rows vs hlen
      (fun r hr v => cellD_append_lt r [v]
        ((hwf r hr) ▸ colIdx_lt_length hc))

theorem getColD_transformStep3_ne (d : DataFrame) (hwf : WF d)
    {c : String} (hc : c ∈ d.cols) (h1 : c ≠ "quantity")
    (h2 : c ≠ "price") (h3 : c ≠ "total_price") :
    getColD (transformStep3 d) c = getColD d c := by
  unfold transformStep3
  split_ifs with hqp
  · obtain ⟨hq, hp⟩ := hqp
    have hwfq : WF (mapCol d "quantity" coerceQty) :=
      WF_mapCol d "quantity" coerceQty hwf
    have hwfp : WF (mapCol (mapCol d "quantity" coerceQty) "price"
        coercePrice) :=
      WF_mapCol _ "price" coercePrice hwfq
    have hlen : (List.zipWith mulQP
        (getColD (mapCol (mapCol d "quantity" coerceQty) "price"
          coercePrice) "quantity")
        (getColD (mapCol (mapCol d "quantity" coerceQty) "price"
          coercePrice) "price")).length =
        (mapCol (mapCol d "quantity" coerceQty) "price"
          coercePrice).rows.length := by
      simp [getColD, List.length_zipWith]
    rw [getColD_setCol_ne
        (mapCol (mapCol d "quantity" coerceQty) "price" coercePrice)
        _ h3 hc hwfp hlen,
      getColD_mapCol_ne (mapCol d "quantity" coerceQty) coercePrice h2 hp,
      getColD_mapCol_ne d coerceQty h1 hq]
  · rfl

theorem getColD_transformStep4_subset (d : DataFrame) {c : String} :
    ∀ v ∈ getColD (transformStep4 d) c, v ∈ getColD d c := by
  unfold transformStep4
  split_ifs with h
  · intro v hv
    unfold getColD at hv ⊢
    dsimp only at hv
    obtain ⟨r, hr, rfl⟩ := List.mem_map.mp hv
    exact List.mem_map.mpr ⟨r, List.mem_of_mem_filter hr, rfl⟩
  · intro v hv
    exact hv

/-- C8: after Transform, no surviving record has a null unique-key value;
the output rows are exactly the pre-drop rows whose key cell is non-null,
kept in order in a plain list (so re-indexing is contiguous by
construction); the columns are unchanged by the drop. -/
theorem transform_drops_null_keys (df : DataFrame)
    (hk : UNIQUE_KEY ∈ df.cols.map normName) :
    (∀ r ∈ (transform_orders_df df).rows,
      valAt (transform_orders_df df).cols r UNIQUE_KEY ≠ Value.null) ∧
    (transform_orders_df df).rows =
      (transformStep3 (transformStep2 (transformStep1 df))).rows.filter
        (fun r => decide (valAt
          (transformStep3 (transformStep2 (transformStep1 df))).cols r
          UNIQUE_KEY ≠ Value.null)) ∧
    (transform_orders_df df).cols =
      (transformStep3 (transformStep2 (transformStep1 df))).cols := by
  have hk1 : UNIQUE_KEY ∈ (transformStep1 df).cols := hk
  have hk2 : UNIQUE_KEY ∈ (transformStep2 (transformStep1 df)).cols := by
    rw [cols_transformStep2]
    exact hk1
  have hk3 : UNIQUE_KEY ∈
      (transformStep3 (transformStep2 (transformStep1 df))).cols :=
    mem_cols_transformStep3 _ hk2
  have heq : transform_orders_df df =
      ⟨(transformStep3 (transformStep2 (transformStep1 df))).cols,
        (transformStep3 (transformStep2 (transformStep1 df))).rows.filter
          (fun r => decide (valAt
            (transformStep3 (transformStep2 (transformStep1 df))).cols r
            UNIQUE_KEY ≠ Value.null))⟩ := by
    show transformStep4 _ = _
    unfold transformStep4
    rw [if_pos hk3]
  refine ⟨?_, by rw [heq], by rw [heq]⟩
  intro r hr
  rw [heq] at hr ⊢
  have := List.of_mem_filter hr
  simpa using this

/-- Witness for C8: a frame with a null `Order_ID` row keeps only the
non-null-key row. -/
theorem transform_drops_null_keys_witness :
    UNIQUE_KEY ∈
      (DataFrame.cols ⟨["Order_ID"], [[Value.int 1], [Value.null]]⟩).map
        normName ∧
    ((∀ r ∈ (transform_orders_df
        ⟨["Order_ID"], [[Value.int 1], [Value.null]]⟩).rows,
      valAt (transform_orders_df
        ⟨["Order_ID"], [[Value.int 1], [Value.null]]⟩).cols r UNIQUE_KEY ≠
        Value.null) ∧
    (transform_orders_df ⟨["Order_ID"], [[Value.int 1], [Value.null]]⟩).rows =
      (transformStep3 (transformStep2 (transformStep1
        ⟨["Order_ID"], [[Value.int 1], [Value.null]]⟩))).rows.filter
        (fun r => decide (valAt
          (transformStep3 (transformStep2 (transformStep1
            ⟨["Order_ID"], [[Value.int 1], [Value.null]]⟩))).cols r
          UNIQUE_KEY ≠ Value.null)) ∧
    (transform_orders_df ⟨["Order_ID"], [[Value.int 1], [Value.null]]⟩).cols =
      (transformStep3 (transformStep2 (transformStep1
        ⟨["Order_ID"], [[Value.int 1], [Value.null]]⟩))).cols) :=
  ⟨by decide,
    transform_drops_null_keys ⟨["Order_ID"], [[Value.int 1], [Value.null]]⟩
      (by decide)⟩

theorem inferDtype_null_or_str {vs : List Value}
    (h : ∀ v ∈ vs, v = Value.null ∨ ∃ s, v = Value.str s) :
    inferDtype vs = .object := by
  cases vs with
  | nil => decide
  | cons v0 rest =>
    have hshape : ∀ v ∈ v0 :: rest,
        isIntV v = false ∧ isNumV v = false ∧ isBoolV v = false ∧
          isTsV v = false := by
      intro v hv
      rcases h v hv with rfl | ⟨s, rfl⟩ <;> exact ⟨rfl, rfl, rfl, rfl⟩
    have h1 : ¬ ((v0 :: rest) ≠ [] ∧ (v0 :: rest).all isIntV = true) := by
      rintro ⟨_, hall⟩
      have := List.all_eq_true.mp hall v0 (List.mem_cons_self v0 rest)
      rw [(hshape v0 (List.mem_cons_self v0 rest)).1] at this
      exact Bool.false_ne_true this
    have h2 : ¬ (((v0 :: rest).all fun v => isNumV v || isNullV v) = true ∧
        (v0 :: rest).any isNumV = true) := by
      rintro ⟨_, hany⟩
      obtain ⟨v, hv, hnum⟩ := List.any_eq_true.mp hany
      rw [(hshape v hv).2.1] at hnum
      exact Bool.false_ne_true hnum
    have h3 : ¬ ((v0 :: rest) ≠ [] ∧ (v0 :: rest).all isBoolV = true) := by
      rintro ⟨_, hall⟩
      have := List.all_eq_true.mp hall v0 (List.mem_cons_self v0 rest)
      rw [(hshape v0 (List.mem_cons_self v0 rest)).2.2.1] at this
      exact Bool.false_ne_true this
    have h4 : ¬ (((v0 :: rest).all fun v => isTsV v || isNullV v) = true ∧
        (v0 :: rest).any isTsV = true) := by
      rintro ⟨_, hany⟩
      obtain ⟨v, hv, hts⟩ := List.any_eq_true.mp hany
      rw [(hshape v hv).2.2.2] at hts
      exact Bool.false_ne_true hts
    rw [inferDtype, if_neg h1, if_neg h2, if_neg h3, if_neg h4]

theorem step2_shape (d : DataFrame) (hwf : WF d)
    (hod : "order_date" ∈ d.cols) :
    ∀ v ∈ getColD (transformStep2 d) "order_date",
      v = Value.null ∨ ∃ s, v = Value.str s := by
  unfold transformStep2
  rw [if_pos hod]
  intro v hv
  unfold getColD mapCol valAt at hv
  dsimp only at hv
  rw [List.map_map] at hv
  obtain ⟨r, hr, rfl⟩ := List.mem_map.mp hv
  simp only [Function.comp_apply]
  have hlt : colIdx d.cols "order_date" < r.length := by
    rw [hwf r hr]
    exact colIdx_lt_length hod
  rw [cellD_setCell_lt r hlt]
  unfold transDateVal
  cases pdToDatetime (cellD r (colIdx d.cols "order_date")) with
  | none => exact Or.inl rfl
  | some s => exact Or.inr ⟨s, rfl⟩

/-- C9: after Transform, every `order_date` value is either null or a
text string, never a datetime; consequently the Type Inferencer assigns
TEXT (object dtype), not DATE, to the transformed `order_date` column —
which is why the Type Reconciler's cast-to-DATE step exists. -/
theorem order_date_column_is_text (df : DataFrame)
    (hod : "order_date" ∈ df.cols.map normName) (hwf : WF df) :
    (∀ v ∈ getColD (transform_orders_df df) "order_date",
      v = Value.null ∨ ∃ s, v = Value.str s) ∧
    (pandas_dtype_to_sqlalchemy "order_date"
      (getColD (transform_orders_df df) "order_date")).2 = SqlType.text ∧
    (pandas_dtype_to_sqlalchemy "order_date"
      (getColD (transform_orders_df df) "order_date")).2 ≠ SqlType.date := by
  have hod1 : "order_date" ∈ (transformStep1 df).cols := hod
  have hwf1 : WF (transformStep1 df) := WF_transformStep1 df hwf
  have hod2 : "order_date" ∈ (transformStep2 (transformStep1 df)).cols := by
    rw [cols_transformStep2]
    exact hod1
  have hwf2 : WF (transformStep2 (transformStep1 df)) :=
    WF_transformStep2 _ hwf1
  have h2 := step2_shape (transformStep1 df) hwf1 hod1
  have e3 : getColD (transformStep3 (transformStep2 (transformStep1 df)))
      "order_date" =
      getColD (transformStep2 (transformStep1 df)) "order_date" :=
    getColD_transformStep3_ne _ hwf2 hod2 (by decide) (by decide) (by decide)
  have hshape : ∀ v ∈ getColD (transform_orders_df df) "order_date",
      v = Value.null ∨ ∃ s, v = Value.str s := by
    intro v hv
    have hv3 := getColD_transformStep4_subset
      (transformStep3 (transformStep2 (transformStep1 df))) v hv
    rw [e3] at hv3
    exact h2 v hv3
  have htext : (pandas_dtype_to_sqlalchemy "order_date"
      (getColD (transform_orders_df df) "order_date")).2 = SqlType.text := by
    unfold pandas_dtype_to_sqlalchemy
    rw [inferDtype_null_or_str hshape]
  refine ⟨hshape, htext, ?_⟩
  rw [htext]
  decide

/-- Witness for C9: a concrete frame whose `order_date` holds one valid
and one invalid date string. -/
theorem order_date_column_is_text_witness :
    ("order_date" ∈
      (DataFrame.cols ⟨["order_id", "order_date"],
        [[Value.int 1, Value.str "2024-01-01"],
         [Value.int 2, Value.str "bad"]]⟩).map normName ∧
     WF ⟨["order_id", "order_date"],
        [[Value.int 1, Value.str "2024-01-01"],
         [Value.int 2, Value.str "bad"]]⟩) ∧
    ((∀ v ∈ getColD (transform_orders_df ⟨["order_id", "order_date"],
        [[Value.int 1, Value.str "2024-01-01"],
         [Value.int 2, Value.str "bad"]]⟩) "order_date",
      v = Value.null ∨ ∃ s, v = Value.str s) ∧
    (pandas_dtype_to_sqlalchemy "order_date"
      (getColD (transform_orders_df ⟨["order_id", "order_date"],
        [[Value.int 1, Value.str "2024-01-01"],
         [Value.int 2, Value.str "bad"]]⟩) "order_date")).2 = SqlType.text ∧
    (pandas_dtype_to_sqlalchemy "order_date"
      (getColD (transform_orders_df ⟨["order_id", "order_date"],
        [[Value.int 1, Value.str "2024-01-01"],
         [Value.int 2, Value.str "bad"]]⟩) "order_date")).2 ≠
      SqlType.date) :=
  ⟨⟨by decide, by intro r hr; fin_cases hr <;> rfl⟩,
    order_date_column_is_text
      ⟨["order_id", "order_date"],
        [[Value.int 1, Value.str "2024-01-01"],
         [Value.int 2, Value.str "bad"]]⟩
      (by decide) (by intro r hr; fin_cases hr <;> rfl)⟩

theorem step3_rowprop (d : DataFrame) (hwf : WF d)
    (hq : "quantity" ∈ d.cols) (hp : "price" ∈ d.cols)
    (htp : "total_price" ∉ d.cols) :
    ∀ r ∈ (transformStep3 d).rows,
      valAt (transformStep3 d).cols r "total_price" =
        mulQP (valAt (transformStep3 d).cols r "quantity")
          (valAt (transformStep3 d).cols r "price") ∧
      (∃ n, valAt (transformStep3 d).cols r "quantity" = Value.int n) ∧
      (∃ x, valAt (transformStep3 d).cols r "price" = Value.num x) := by
  have hne_qp : ("quantity" : String) ≠ "price" := by decide
  have hstep : transformStep3 d =
      ⟨d.cols ++ ["total_price"],
        (mapCol (mapCol d "quantity" coerceQty) "price"
            coercePrice).rows.map
          (fun r => r ++ [mulQP (valAt d.cols r "quantity")
            (valAt d.cols r "price")])⟩ := by
    unfold transformStep3
    rw [if_pos ⟨hq, hp⟩]
    unfold setCol
    rw [if_neg (show "total_price" ∉
      (mapCol (mapCol d "quantity" coerceQty) "price" coercePrice).cols
      from htp)]
    congr 1
    rw [show getColD (mapCol (mapCol d "quantity" coerceQty) "price"
        coercePrice) "quantity" =
      (mapCol (mapCol d "quantity" coerceQty) "price"
        coercePrice).rows.map (fun r => valAt d.cols r "quantity") from rfl]
    rw [show getColD (mapCol (mapCol d "quantity" coerceQty) "price"
        coercePrice) "price" =
      (mapCol (mapCol d "quantity" coerceQty) "price"
        coercePrice).rows.map (fun r => valAt d.cols r "price") from rfl]
    rw [zipWith_map_same]
    rw [zipWith_map_right_same]
  have hwfq : WF (mapCol d "quantity" coerceQty) :=
    WF_mapCol d "quantity" coerceQty hwf
  have hwfp : WF (mapCol (mapCol d "quantity" coerceQty) "price"
      coercePrice) := WF_mapCol _ "price" coercePrice hwfq
  intro r3 hr3
  rw [hstep] at hr3 ⊢
  dsimp only at hr3 ⊢
  obtain ⟨r, hr, rfl⟩ := List.mem_map.mp hr3
  have hrlen : r.length = d.cols.length := hwfp r hr
  have htpc : colIdx (d.cols ++ ["total_price"]) "total_price" =
      d.cols.length := colIdx_concat_self htp
  have hqc : colIdx (d.cols ++ ["total_price"]) "quantity" =
      colIdx d.cols "quantity" := colIdx_append_left hq _
  have hpc : colIdx (d.cols ++ ["total_price"]) "price" =
      colIdx d.cols "price" := colIdx_append_left hp _
  have hvq : valAt (d.cols ++ ["total_price"])
      (r ++ [mulQP (valAt d.cols r "quantity") (valAt d.cols r "price")])
      "quantity" = cellD r (colIdx d.cols "quantity") := by
    unfold valAt
    rw [hqc]
    exact cellD_append_lt r _ (hrlen ▸ colIdx_lt_length hq)
  have hvp : valAt (d.cols ++ ["total_price"])
      (r ++ [mulQP (valAt d.cols r "quantity") (valAt d.cols r "price")])
      "price" = cellD r (colIdx d.cols "price") := by
    unfold valAt
    rw [hpc]
    exact cellD_append_lt r _ (hrlen ▸ colIdx_lt_length hp)
  have hvt : valAt (d.cols ++ ["total_price"])
      (r ++ [mulQP (valAt d.cols r "quantity") (valAt d.cols r "price")])
      "total_price" =
      mulQP (valAt d.cols r "quantity") (valAt d.cols r "price") := by
    unfold valAt
    rw [htpc, ← hrlen]
    exact cellD_concat_length r _
  -- decompose r through the two mapCol layers
  have hr' : r ∈ (mapCol d "quantity" coerceQty).rows.map
      (fun r => setCell r (colIdx (mapCol d "quantity" coerceQty).cols
        "price") coercePrice) := hr
  obtain ⟨r2, hr2, rfl⟩ := List.mem_map.mp hr'
  have hr2' : r2 ∈ d.rows.map
      (fun r => setCell r (colIdx d.cols "quantity") coerceQty) := hr2
  obtain ⟨r0, hr0, rfl⟩ := List.mem_map.mp hr2'
  have hr0len : r0.length = d.cols.length := hwf r0 hr0
  have hr2len : (setCell r0 (colIdx d.cols "quantity") coerceQty).length
      = d.cols.length := by rw [length_setCell]; exact hr0len
  have hiq_ne_ip : colIdx d.cols "quantity" ≠
      colIdx (mapCol d "quantity" coerceQty).cols "price" :=
    colIdx_ne_of_ne (show "price" ∈ (mapCol d "quantity" coerceQty).cols
      from hp) hne_qp
  have hq_shape : cellD (setCell (setCell r0 (colIdx d.cols "quantity")
      coerceQty) (colIdx (mapCol d "quantity" coerceQty).cols "price")
      coercePrice) (colIdx d.cols "quantity") =
      coerceQty (cellD r0 (colIdx d.cols "quantity")) := by
    rw [cellD_setCell_ne _ hiq_ne_ip]
    exact cellD_setCell_lt r0 (hr0len ▸ colIdx_lt_length hq) coerceQty
  have hp_shape : cellD (setCell (setCell r0 (colIdx d.cols "quantity")
      coerceQty) (colIdx (mapCol d "quantity" coerceQty).cols "price")
      coercePrice) (colIdx d.cols "price") =
      coercePrice (cellD (setCell r0 (colIdx d.cols "quantity") coerceQty)
        (colIdx d.cols "price")) := by
    exact cellD_setCell_lt _ (hr2len ▸ colIdx_lt_length hp) coercePrice
  refine ⟨?_, ?_, ?_⟩
  · rw [hvt, hvq, hvp]
    rfl
  · rw [hvq]
    rw [show cellD (setCell (setCell r0 (colIdx d.cols "quantity")
        coerceQty) (colIdx (mapCol d "quantity" coerceQty).cols "price")
        coercePrice) (colIdx d.cols "quantity") =
        coerceQty (cellD r0 (colIdx d.cols "quantity")) from hq_shape]
    exact ⟨_, rfl⟩
  · rw [hvp]
    rw [show cellD (setCell (setCell r0 (colIdx d.cols "quantity")
        coerceQty) (colIdx (mapCol d "quantity" coerceQty).cols "price")
        coercePrice) (colIdx d.cols "price") =
        coercePrice (cellD (setCell r0 (colIdx d.cols "quantity")
          coerceQty) (colIdx d.cols "price")) from hp_shape]
    exact ⟨_, rfl⟩

/-- C7: when both `quantity` and `price` columns are present (and no
`total_price` column pre-exists), every transformed record carries a
derived `total_price` equal to the elementwise product of its (coerced)
`quantity` and `price` cells; `quantity` is always an integer value and
`price` always a float value after coercion (non-numeric input becomes
the typed zero); concretely, `quantity=3, price=5/2` yields
`total_price=15/2` and the non-numeric `quantity="x"` yields
`total_price=0` without failing. -/
theorem derived_total_price (df : DataFrame)
    (hq : "quantity" ∈ df.cols.map normName)
    (hp : "price" ∈ df.cols.map normName)
    (htp : "total_price" ∉ df.cols.map normName)
    (hwf : WF df) :
    (∀ r ∈ (transform_orders_df df).rows,
      valAt (transform_orders_df df).cols r "total_price" =
        mulQP (valAt (transform_orders_df df).cols r "quantity")
          (valAt (transform_orders_df df).cols r "price") ∧
      (∃ n, valAt (transform_orders_df df).cols r "quantity" =
        Value.int n) ∧
      (∃ x, valAt (transform_orders_df df).cols r "price" =
        Value.num x)) ∧
    getColD (transform_orders_df
      ⟨["order_id", "quantity", "price"],
        [[Value.int 1, Value.int 3, Value.num (mkRat 5 2)]]⟩)
      "total_price" = [Value.num (mkRat 15 2)] ∧
    getColD (transform_orders_df
      ⟨["order_id", "quantity", "price"],
        [[Value.int 1, Value.str "x", Value.num (mkRat 5 2)]]⟩)
      "total_price" = [Value.num (mkRat 0 1)] := by
  refine ⟨?_, by decide, by decide⟩
  have hq2 : "quantity" ∈ (transformStep2 (transformStep1 df)).cols := by
    rw [cols_transformStep2]
    exact hq
  have hp2 : "price" ∈ (transformStep2 (transformStep1 df)).cols := by
    rw [cols_transformStep2]
    exact hp
  have htp2 : "total_price" ∉ (transformStep2 (transformStep1 df)).cols := by
    rw [cols_transformStep2]
    exact htp
  have hwf2 : WF (transformStep2 (transformStep1 df)) :=
    WF_transformStep2 _ (WF_transformStep1 df hwf)
  have hcore := step3_rowprop (transformStep2 (transformStep1 df)) hwf2
    hq2 hp2 htp2
  intro r hr
  have hr3 : r ∈ (transformStep3 (transformStep2 (transformStep1 df))).rows :=
    rows_transformStep4_subset _ r hr
  have hcols : (transform_orders_df df).cols =
      (transformStep3 (transformStep2 (transformStep1 df))).cols :=
    cols_transformStep4 _
  rw [show (transform_orders_df df).cols =
    (transformStep3 (transformStep2 (transformStep1 df))).cols from hcols]
  exact hcore r hr3

/-- Witness for C7: the spec's `quantity=3, price=5/2` example run
through the full Transformer. -/
theorem derived_total_price_witness :
    ("quantity" ∈ (DataFrame.cols ⟨["order_id", "quantity", "price"],
        [[Value.int 1, Value.int 3, Value.num (mkRat 5 2)]]⟩).map normName ∧
      "price" ∈ (DataFrame.cols ⟨["order_id", "quantity", "price"],
        [[Value.int 1, Value.int 3, Value.num (mkRat 5 2)]]⟩).map normName ∧
      "total_price" ∉ (DataFrame.cols ⟨["order_id", "quantity", "price"],
        [[Value.int 1, Value.int 3, Value.num (mkRat 5 2)]]⟩).map normName ∧
      WF ⟨["order_id", "quantity", "price"],
        [[Value.int 1, Value.int 3, Value.num (mkRat 5 2)]]⟩) ∧
    (∀ r ∈ (transform_orders_df ⟨["order_id", "quantity", "price"],
        [[Value.int 1, Value.int 3, Value.num (mkRat 5 2)]]⟩).rows,
      valAt (transform_orders_df ⟨["order_id", "quantity", "price"],
        [[Value.int 1, Value.int 3, Value.num (mkRat 5 2)]]⟩).cols r
          "total_price" =
        mulQP (valAt (transform_orders_df ⟨["order_id", "quantity", "price"],
          [[Value.int 1, Value.int 3, Value.num (mkRat 5 2)]]⟩).cols r
            "quantity")
          (valAt (transform_orders_df ⟨["order_id", "quantity", "price"],
            [[Value.int 1, Value.int 3, Value.num (mkRat 5 2)]]⟩).cols r
              "price") ∧
      (∃ n, valAt (transform_orders_df ⟨["order_id", "quantity", "price"],
        [[Value.int 1, Value.int 3, Value.num (mkRat 5 2)]]⟩).cols r
          "quantity" = Value.int n) ∧
      (∃ x, valAt (transform_orders_df ⟨["order_id", "quantity", "price"],
        [[Value.int 1, Value.int 3, Value.num (mkRat 5 2)]]⟩).cols r
          "price" = Value.num x)) :=
  ⟨⟨by decide, by decide, by decide, by intro r hr; fin_cases hr <;> rfl⟩,
    (derived_total_price ⟨["order_id", "quantity", "price"],
        [[Value.int 1, Value.int 3, Value.num (mkRat 5 2)]]⟩
      (by decide) (by decide) (by decide)
      (by intro r hr; fin_cases hr <;> rfl)).1⟩

/-- C10: the Transformer truncates `quantity` toward zero — any value
parsing to a rational `q` coerces to the integer `ratTrunc q` (numpy
`astype(int)`), truncation changes every non-integral value, and in the
full pipeline the input `quantity="2.9", price=2` produces
`quantity=2` and `total_price=4` (from the truncated quantity), not
`5.8 = 29/5` (which the original value would give). -/
theorem quantity_truncation :
    (∀ (v : Value) (q : Rat), toNumeric v = some q →
      coerceQty v = Value.int (ratTrunc q)) ∧
    (∀ q : Rat, q.den ≠ 1 → ((ratTrunc q : Int) : Rat) ≠ q) ∧
    getColD (transform_orders_df
      ⟨["order_id", "quantity", "price"],
        [[Value.int 1, Value.str "2.9", Value.num (mkRat 2 1)]]⟩)
      "quantity" = [Value.int 2] ∧
    getColD (transform_orders_df
      ⟨["order_id", "quantity", "price"],
        [[Value.int 1, Value.str "2.9", Value.num (mkRat 2 1)]]⟩)
      "total_price" = [Value.num (mkRat 4 1)] ∧
    Value.num (mkRat 4 1) ≠ Value.num (mkRat 29 5) := by
  refine ⟨?_, ?_, by decide, by decide, by decide⟩
  · intro v q h
    rw [coerceQty, h]
    rfl
  · intro q hq h
    apply hq
    have := congrArg Rat.den h
    rw [Rat.den_intCast] at this
    exact this.symm

/-- Witness for C10: the truncation case applied to the string `"2.9"`,
which parses to `29/10` and truncates to `2`. -/
theorem quantity_truncation_witness :
    toNumeric (Value.str "2.9") = some (mkRat 29 10) ∧
    coerceQty (Value.str "2.9") = Value.int (ratTrunc (mkRat 29 10)) :=
  ⟨by decide,
    quantity_truncation.1 (Value.str "2.9") (mkRat 29 10) (by decide)⟩

-- ---------- idempotence support lemmas (C2) ----------

theorem castDates_preserve_col : ∀ (l : List String) (t t' : DataFrame)
    (e : Option CastFail) (k : String),
    (∀ c ∈ l, c ∈ t.cols ∧ c ≠ k) → castDates t l = (t', e) →
    t'.cols = t.cols ∧ getColD t' k = getColD t k := by
  intro l
  induction l with
  | nil =>
    intro t t' e k _ h
    simp only [castDates] at h
    obtain ⟨h1, _⟩ := Prod.mk.injEq .. ▸ h
    rw [← h1]
    exact ⟨rfl, rfl⟩
  | cons c rest ih =>
    intro t t' e k hl h
    cases hcc : castCol t c with
    | error f =>
      simp only [castDates, hcc] at h
      obtain ⟨h1, _⟩ := Prod.mk.injEq .. ▸ h
      rw [← h1]
      exact ⟨rfl, rfl⟩
    | ok t'' =>
      simp only [castDates, hcc] at h
      obtain ⟨hc1, hc2⟩ := castCol_preserve t k c t'' hcc
        (hl c (List.mem_cons_self c rest)).1
        (Ne.symm (hl c (List.mem_cons_self c rest)).2)
      obtain ⟨hi1, hi2⟩ := ih t'' t' e k
        (fun c' hc' => ⟨hc1 ▸ (hl c' (List.mem_cons_of_mem c hc')).1,
          (hl c' (List.mem_cons_of_mem c hc')).2⟩) h
      exact ⟨hi1.trans hc1, hi2.trans hc2⟩

theorem ensureTarget_of_hasTable {db : DB} {tn : String} (df : DataFrame)
    (h : hasTable db tn = true) : ensureTarget db df tn = db := by
  unfold ensureTarget
  rw [if_pos h]

theorem hasTable_ensureTarget (db : DB) (df : DataFrame) (tn : String) :
    hasTable (ensureTarget db df tn) tn = true := by
  unfold ensureTarget
  by_cases h : hasTable db tn = true
  · rw [if_pos h]
    exact h
  · rw [if_neg h]
    unfold hasTable
    rw [lookup_setTable_self]
    rfl

theorem hasTable_setTable_ne (db : DB) {m n : String} (h : m ≠ n)
    (t : DataFrame) : hasTable (setTable db n t) m = hasTable db m := by
  unfold hasTable
  rw [lookup_setTable_ne db h t]

theorem load_unfold_ok (db : DB) (df : DataFrame) (tn uk : String)
    (t' : DataFrame)
    (hc : attempt_cast_date_columns ⟨df.cols, df.rows⟩ df = (t', none)) :
    load_df_to_postgres_upsert db df tn uk =
      mergeStep (setTable (ensureTarget db df tn) (stagingName tn) t')
        df tn uk t' := by
  unfold load_df_to_postgres_upsert
  rw [hc]
  dsimp only
  rw [setTable_setTable]

theorem load_unfold_err (db : DB) (df : DataFrame) (tn uk : String)
    (t' : DataFrame) (f : CastFail)
    (hc : attempt_cast_date_columns ⟨df.cols, df.rows⟩ df = (t', some f)) :
    load_df_to_postgres_upsert db df tn uk =
      (setTable (ensureTarget db df tn) (stagingName tn) t',
        some (.castErr f)) := by
  unfold load_df_to_postgres_upsert
  rw [hc]
  dsimp only
  rw [setTable_setTable]

theorem mergeStep_mismatch (db4 : DB) (df : DataFrame) (tn uk : String)
    (t' : DataFrame)
    (h : ¬ ((lookupTable db4 tn).getD ⟨df.cols, []⟩).cols = df.cols) :
    mergeStep db4 df tn uk t' =
      (db4, some (.mergeErr "column does not exist")) := by
  unfold mergeStep
  rw [if_neg h]

theorem mergeStep_ok (db4 : DB) (df : DataFrame) (tn uk : String)
    (t' : DataFrame)
    (hcols : ((lookupTable db4 tn).getD ⟨df.cols, []⟩).cols = df.cols)
    (hnd : (t'.rows.map (keyAt (colIdx df.cols uk))).Nodup) :
    mergeStep db4 df tn uk t' =
      (setTable (dropTable db4 (stagingName tn)) tn
        ⟨((lookupTable db4 tn).getD ⟨df.cols, []⟩).cols,
          mergeRows (colIdx df.cols uk)
            ((lookupTable db4 tn).getD ⟨df.cols, []⟩).rows t'.rows⟩,
        none) := by
  unfold mergeStep
  rw [if_pos hcols, mergeStaging, if_pos hnd]

theorem dq_nil_facts (df : DataFrame)
    (h : basic_data_quality_checks df = []) :
    UNIQUE_KEY ∈ df.cols ∧ (getColD df UNIQUE_KEY).Nodup := by
  have hiff := dq_ne_nil_iff df
  have hnot : ¬ ((∃ c ∈ REQUIRED_COLUMNS, c ∉ df.cols) ∨ df.rows = [] ∨
      (UNIQUE_KEY ∈ df.cols ∧ ¬ (getColD df UNIQUE_KEY).Nodup)) :=
    fun hx => (hiff.mpr hx) h
  push_neg at hnot
  obtain ⟨h1, _, h3⟩ := hnot
  have hk : UNIQUE_KEY ∈ df.cols :=
    h1 UNIQUE_KEY (by decide)
  exact ⟨hk, h3 hk⟩

theorem load_load_lookup (db : DB) (df : DataFrame) (tn uk : String)
    (hkey : uk ∈ df.cols) (hnd : (getColD df uk).Nodup)
    (hukd : containsDate uk = false) :
    lookupTable (load_df_to_postgres_upsert
      (load_df_to_postgres_upsert db df tn uk).1 df tn uk).1 tn =
    lookupTable (load_df_to_postgres_upsert db df tn uk).1 tn := by
  have hTst : tn ≠ stagingName tn := stagingName_ne tn
  rcases hc : attempt_cast_date_columns ⟨df.cols, df.rows⟩ df with ⟨t', e⟩
  cases e with
  | some f =>
    rw [load_unfold_err db df tn uk t' f hc]
    dsimp only
    rw [load_unfold_err _ df tn uk t' f hc]
    rw [ensureTarget_of_hasTable df (by
      rw [hasTable_setTable_ne _ hTst]
      exact hasTable_ensureTarget db df tn)]
    rw [setTable_setTable]
  | none =>
    rw [load_unfold_ok db df tn uk t' hc]
    have hl : ∀ c ∈ df.cols.filter (fun c => containsDate c),
        c ∈ (⟨df.cols, df.rows⟩ : DataFrame).cols ∧ c ≠ uk := by
      intro c hcf
      obtain ⟨hcm, hcd⟩ := List.mem_filter.mp hcf
      refine ⟨hcm, fun he => ?_⟩
      rw [he, hukd] at hcd
      exact Bool.false_ne_true hcd
    obtain ⟨hcols', hcol⟩ :=
      castDates_preserve_col (df.cols.filter (fun c => containsDate c))
        ⟨df.cols, df.rows⟩ t' none uk hl hc
    have hknd : (t'.rows.map (keyAt (colIdx df.cols uk))).Nodup := by
      have e1 : getColD t' uk =
          t'.rows.map (keyAt (colIdx df.cols uk)) := by
        unfold getColD valAt keyAt
        simp only [hcols']
      rw [← e1, hcol]
      exact hnd
    by_cases hcolsS : ((lookupTable
        (setTable (ensureTarget db df tn) (stagingName tn) t') tn).getD
        ⟨df.cols, []⟩).cols = df.cols
    · rw [mergeStep_ok _ df tn uk t' hcolsS hknd]
      dsimp only
      rw [load_unfold_ok _ df tn uk t' hc]
      rw [ensureTarget_of_hasTable df (by
        unfold hasTable
        rw [lookup_setTable_self]
        rfl)]
      have hL : lookupTable (setTable (setTable
          (dropTable (setTable (ensureTarget db df tn) (stagingName tn) t')
            (stagingName tn)) tn
          ⟨((lookupTable (setTable (ensureTarget db df tn)
              (stagingName tn) t') tn).getD ⟨df.cols, []⟩).cols,
            mergeRows (colIdx df.cols uk)
              ((lookupTable (setTable (ensureTarget db df tn)
                (stagingName tn) t') tn).getD ⟨df.cols, []⟩).rows
              t'.rows⟩)
          (stagingName tn) t') tn =
          some ⟨((lookupTable (setTable (ensureTarget db df tn)
              (stagingName tn) t') tn).getD ⟨df.cols, []⟩).cols,
            mergeRows (colIdx df.cols uk)
              ((lookupTable (setTable (ensureTarget db df tn)
                (stagingName tn) t') tn).getD ⟨df.cols, []⟩).rows
              t'.rows⟩ := by
        rw [lookup_setTable_ne _ hTst, lookup_setTable_self]
      rw [mergeStep_ok _ df tn uk t' (by rw [hL]; exact hcolsS) hknd]
      dsimp only
      rw [lookup_setTable_self, lookup_setTable_self]
      rw [hL]
      simp only [Option.getD_some]
      rw [mergeRows_idem (colIdx df.cols uk) _ t'.rows hknd]
    · rw [mergeStep_mismatch _ df tn uk t' hcolsS]
      dsimp only
      rw [load_unfold_ok _ df tn uk t' hc]
      rw [ensureTarget_of_hasTable df (by
        rw [hasTable_setTable_ne _ hTst]
        exact hasTable_ensureTarget db df tn)]
      rw [setTable_setTable]
      rw [mergeStep_mismatch _ df tn uk t' hcolsS]

theorem run_dq_stop (validator : DataFrame → List String) (raw : DataFrame)
    (db : DB) (pu sc : Bool)
    (hne : basic_data_quality_checks (transform_orders_df raw) ≠ []) :
    run_etl_from_minio_to_postgres validator raw db pu sc =
      ⟨db, some (.dqError
          (basic_data_quality_checks (transform_orders_df raw))),
        false, false⟩ := by
  unfold run_etl_from_minio_to_postgres
  rw [if_neg hne]

/-- C2: running the full pipeline twice in upsert mode on the same
source data leaves the sink table exactly as one run leaves it (same
rows, hence same row count and content), for any initial database, any
deterministic structural validator, and whether or not the structural
check is enabled. -/
theorem pipeline_idempotent (validator : DataFrame → List String)
    (raw : DataFrame) (db : DB) (sc : Bool) :
    lookupTable (run_etl_from_minio_to_postgres validator raw
      (run_etl_from_minio_to_postgres validator raw db true sc).db
      true sc).db TARGET_TABLE =
    lookupTable (run_etl_from_minio_to_postgres validator raw db true
      sc).db TARGET_TABLE := by
  by_cases hdq : basic_data_quality_checks (transform_orders_df raw) = []
  case neg =>
    rw [run_dq_stop validator raw db true sc hdq]
    dsimp only
    rw [run_dq_stop validator raw db true sc hdq]
  case pos =>
    obtain ⟨hkey, hknd⟩ := dq_nil_facts _ hdq
    by_cases hv : sc = true ∧ validator (transform_orders_df raw) ≠ []
    · have hrun : ∀ d : DB,
          run_etl_from_minio_to_postgres validator raw d true sc =
            ⟨d, some (.schemaError
                (validator (transform_orders_df raw))), true, false⟩ := by
        intro d
        obtain ⟨hsc, hvne⟩ := hv
        unfold run_etl_from_minio_to_postgres
        rw [if_pos hdq, hsc, if_pos rfl, if_neg hvne]
      rw [hrun db]
      dsimp only
      rw [hrun db]
    · have hload : ∀ d : DB,
          (run_etl_from_minio_to_postgres validator raw d true sc).db =
            (load_df_to_postgres_upsert d (transform_orders_df raw)
              TARGET_TABLE UNIQUE_KEY).1 := by
        intro d
        unfold run_etl_from_minio_to_postgres
        rw [if_pos hdq]
        cases sc with
        | false =>
          rw [if_neg (by simp), if_pos rfl]
          rcases hl : load_df_to_postgres_upsert d (transform_orders_df raw)
            TARGET_TABLE UNIQUE_KEY with ⟨db', e⟩
          cases e <;> rfl
        | true =>
          have hvq : validator (transform_orders_df raw) = [] := by
            by_contra hvne
            exact hv ⟨rfl, hvne⟩
          rw [if_pos rfl, if_pos hvq, if_pos rfl]
          rcases hl : load_df_to_postgres_upsert d (transform_orders_df raw)
            TARGET_TABLE UNIQUE_KEY with ⟨db', e⟩
          cases e <;> rfl
      rw [hload, hload]
      exact load_load_lookup db (transform_orders_df raw) TARGET_TABLE
        UNIQUE_KEY hkey hknd (by decide)
